import Mathlib

/-! # gogcli: keyring backend selection and remote token source

A shallow embedding of

* `internal/cmd/auth_keyring.go` (`AuthKeyringCmd.Run`), and
* `internal/googleapi/remote_token_source.go` (`remoteTokenSource.Token`),

together with the properties stated about them.

Go strings are embedded as Lean `String`s (sequences of Unicode code points,
i.e. the well-formed UTF-8 Go strings).  The Go standard library and the
collaborating packages of the repository are embedded either concretely
(`strings.TrimSpace`, the ASCII part of `strings.ToLower`, `http.Header`, the
encoding and decoding of a `remoteTokenResponse` by `encoding/json` and `time`)
or as explicit parameters (`unicode.ToLower` outside ASCII, the marshalling of
the request, the HTTP transport).
-/

set_option autoImplicit false

/-! ## Standard library: package `strings` -/

namespace strings

/-- Go `unicode.IsSpace`: the Latin-1 spaces `\t \n \v \f \r ' '`, U+0085, U+00A0
and the remaining code points of the `White_Space` table. -/
def isSpace (c : Char) : Bool :=
  let n := c.toNat
  (9 ≤ n && n ≤ 13) || n == 32 || n == 0x85 || n == 0xA0 || n == 0x1680 ||
    (0x2000 ≤ n && n ≤ 0x200A) || n == 0x2028 || n == 0x2029 || n == 0x202F ||
    n == 0x205F || n == 0x3000

/-- Go `strings.TrimSpace`: strip all leading and trailing white space. -/
def TrimSpace (s : String) : String :=
  ⟨((s.data.dropWhile isSpace).reverse.dropWhile isSpace).reverse⟩

/-- Go `unicode.ToLower` on one rune.  For ASCII the mapping is `A-Z ↦ a-z`;
for every other rune the case table of package `unicode` is the parameter
`table`. -/
def toLowerRune (table : Char → Char) (c : Char) : Char :=
  if c.toNat < 128 then
    if 65 ≤ c.toNat ∧ c.toNat ≤ 90 then Char.ofNat (c.toNat + 32) else c
  else table c

/-- Go `strings.ToLower`: map every rune with `unicode.ToLower`. -/
def ToLower (table : Char → Char) (s : String) : String :=
  ⟨s.data.map (toLowerRune table)⟩

/-- Go `strings.Contains`: `sub` occurs in `s` as a contiguous substring. -/
def Contains (s sub : String) : Prop :=
  sub.data <:+: s.data

instance (s sub : String) : Decidable (Contains s sub) := by
  unfold Contains; infer_instance

end strings

/-! ## Package `cmd`: `gog auth keyring` -/

namespace cmd

/-- Go `error` values seen by `Run`: either an `*ExitError` with its exit code
(the message is kept as format string and arguments), or any other error of a
collaborator, identified by its message. -/
inductive GoError where
  | ExitError (Code : Int) (format : String) (args : List String)
  | other (msg : String)
  deriving DecidableEq

/-- Modelled from the spec: `usagef`, defined elsewhere in package `cmd`, builds
the usage error, which carries exit code 2 (spec §4.1 and §7; asserted with
`ee.Code != 2` in `TestAuthKeyringSet_InvalidBackend`). -/
def usagef (format : String) (args : List String) : GoError :=
  GoError.ExitError 2 format args

/-- Exit code carried by an error, when it is an `*ExitError`. -/
def GoError.exitCode : GoError → Option Int
  | GoError.ExitError code _ _ => some code
  | GoError.other _ => none

/-- Modelled from the spec: `config.File`, the persisted record; it has the field
`KeyringBackend` and further fields that `Run` never touches. -/
structure Config where
  KeyringBackend : String
  others : List (String × String)
  deriving DecidableEq

/-- Modelled from the spec: `secrets.KeyringBackendInfo`, the effective backend
and the source it was resolved from. -/
structure BackendInfo where
  Value : String
  Source : String
  deriving DecidableEq

/-- A value inside the JSON object handed to `outfmt.WriteJSON`. -/
inductive JSONValue where
  | str (s : String)
  | bool (b : Bool)
  deriving DecidableEq

/-- One write to standard output: a text line of the UI printer, or a JSON
object written by `outfmt.WriteJSON`. -/
inductive Output where
  | line (s : String)
  | json (fields : List (String × JSONValue))
  deriving DecidableEq

/-- Modelled from the spec: the collaborators `config`, `secrets`, `outfmt` and `ui`,
which are not part of the embedded sources.  A `World` is everything `Run` reads
or writes besides its receiver: the config store, the process environment, the
context (output mode, UI) and the two output streams.  The observable contract
of the collaborators (§6) is
* `config.ReadConfig` returns the persisted record or fails,
* `config.WriteConfig` persists the record in full or fails leaving it as it was,
* `config.ConfigPath` returns a path,
* `secrets.ResolveKeyringBackendInfo` returns the effective backend or fails,
* `outfmt.IsJSON`, `outfmt.IsPlain` read the mode from the context,
* `outfmt.WriteJSON` writes one object to standard output or fails,
* `ui.FromContext` returns the UI or `nil`; each `Printf`/`Println` of a sink
  writes one line. -/
structure World where
  config : Config
  readErr : Option GoError
  writeErr : Option GoError
  path : String
  info : Except GoError BackendInfo
  GOG_KEYRING_BACKEND : String
  isJSON : Bool
  isPlain : Bool
  ui : Bool
  jsonErr : Option GoError
  stdout : List Output
  stderr : List String

/-- Modelled from the spec: `config.ReadConfig`, which returns the persisted
record or fails. -/
def ReadConfig (w : World) : Except GoError Config :=
  match w.readErr with
  | some e => Except.error e
  | none => Except.ok w.config

/-- Modelled from the spec: `config.WriteConfig`, which persists the record in
full or fails and preserves the previous state (§7). -/
def WriteConfig (cfg : Config) (w : World) : Except GoError World :=
  match w.writeErr with
  | some e => Except.error e
  | none => Except.ok { w with config := cfg }

/-- Modelled from the spec: `outfmt.WriteJSON(os.Stdout, obj)`, which writes one
JSON object to standard output or fails. -/
def WriteJSON (obj : List (String × JSONValue)) (w : World) : Option GoError × World :=
  match w.jsonErr with
  | some e => (some e, w)
  | none => (none, { w with stdout := w.stdout ++ [Output.json obj] })

/-- Modelled from the spec: `u.Out().Printf`, one line on standard output. -/
def outPrintf (line : String) (w : World) : World :=
  { w with stdout := w.stdout ++ [Output.line line] }

/-- Modelled from the spec: `u.Err().Printf` and `u.Err().Println`, one line on
standard error. -/
def errPrintf (line : String) (w : World) : World :=
  { w with stderr := w.stderr ++ [line] }

/-- The receiver of `Run`: the two optional positional arguments. -/
structure AuthKeyringCmd where
  Backend : String
  Backend2 : String
  deriving DecidableEq

/-- The keys of the map `allowed` in `Run`. -/
def allowed : List String := ["auto", "keychain", "file"]

/-- Lines 22-29 of `auth_keyring.go`: normalise both arguments and apply the
backwards-compatible `set <backend>` shift. -/
def normalizeArgs (table : Char → Char) (c : AuthKeyringCmd) : String × String :=
  let backend := strings.ToLower table (strings.TrimSpace c.Backend)
  let backend2 := strings.ToLower table (strings.TrimSpace c.Backend2)
  if backend = "set" then (backend2, "") else (backend, backend2)

/-- Lines 61-63 of `auth_keyring.go`: `default` is rewritten to `auto`. -/
def rewriteDefault (backend : String) : String :=
  if backend = "default" then "auto" else backend

/-- The NOTE line of `Run` for the trimmed environment value `v`. -/
def noteLine (v : String) : String :=
  "NOTE: GOG_KEYRING_BACKEND=" ++ v ++ " overrides config.json"

/-- `AuthKeyringCmd.Run`: returns the error (`none` for `nil`) and the world
after the call. -/
def Run (table : Char → Char) (c : AuthKeyringCmd) (w : World) : Option GoError × World :=
  let args := normalizeArgs table c
  let backend := args.1
  let backend2 := args.2
  -- No args: show current config.
  if backend = "" then
    match w.info with
    | Except.error err => (some err, w)
    | Except.ok info =>
      if w.isJSON then
        WriteJSON [("keyring_backend", JSONValue.str info.Value),
                   ("source", JSONValue.str info.Source),
                   ("path", JSONValue.str w.path)] w
      else if w.ui = false then (none, w)
      else
        (none,
          errPrintf "Hint: gog auth keyring <auto|keychain|file>"
            (outPrintf ("source\t" ++ info.Source)
              (outPrintf ("keyring_backend\t" ++ info.Value)
                (outPrintf ("path\t" ++ w.path) w))))
  else if backend2 ≠ "" then
    (some (usagef "too many args: %q %q" [c.Backend, c.Backend2]), w)
  else
    let backend := rewriteDefault backend
    if backend ∉ allowed then
      (some (usagef "invalid backend: %q (expected auto, keychain, or file)" [c.Backend]), w)
    else
      match ReadConfig w with
      | Except.error err => (some err, w)
      | Except.ok cfg =>
        match WriteConfig { cfg with KeyringBackend := backend } w with
        | Except.error err => (some err, w)
        | Except.ok w1 =>
          let v := strings.TrimSpace w1.GOG_KEYRING_BACKEND
          -- Env var wins; warn so it doesn't look "broken".
          let w2 :=
            if v ≠ "" ∧ w1.ui = true ∧ w1.isJSON = false ∧ w1.isPlain = false then
              errPrintf (noteLine v) w1
            else w1
          if w2.isJSON then
            WriteJSON [("written", JSONValue.bool true),
                       ("path", JSONValue.str w2.path),
                       ("keyring_backend", JSONValue.str backend)] w2
          else if w2.ui = false then (none, w2)
          else
            (none,
              outPrintf ("keyring_backend\t" ++ backend)
                (outPrintf ("path\t" ++ w2.path)
                  (outPrintf "written\ttrue" w2)))

/-- A world for concrete evaluation: an empty config, nothing fails, text mode,
UI bound, `GOG_KEYRING_BACKEND` unset. -/
def sampleWorld : World :=
  { config := { KeyringBackend := "", others := [] }
    readErr := none
    writeErr := none
    path := "/home/u/.config/gogcli/config.json"
    info := Except.ok { Value := "auto", Source := "default" }
    GOG_KEYRING_BACKEND := ""
    isJSON := false
    isPlain := false
    ui := true
    jsonErr := none
    stdout := []
    stderr := [] }

end cmd

/-! ## Package `googleapi`: the remote token source -/

namespace googleapi

/-! ### Package `time`: RFC 3339 timestamps -/

/-- A `time.Time` value, seen through what the RFC 3339 layout reads and writes:
its calendar date and clock (`Date`, `Clock`, `Nanosecond`) in its own zone and
the offset of that zone in minutes east of UTC (the layout writes the zone as
`hh:mm`).  Years before 0 and zone offsets with seconds are not represented. -/
structure Time where
  year : Nat
  month : Nat
  day : Nat
  hour : Nat
  minute : Nat
  second : Nat
  nsec : Nat
  offset : Int
  deriving DecidableEq

/-- The zero `time.Time`: January 1, year 1, 00:00:00 UTC. -/
def Time.zero : Time :=
  { year := 1, month := 1, day := 1, hour := 0, minute := 0, second := 0, nsec := 0,
    offset := 0 }

/-- Go `time.isLeap`. -/
def isLeap (year : Nat) : Bool :=
  year % 4 == 0 && (year % 100 != 0 || year % 400 == 0)

/-- Go `time.daysIn`: the number of days of a month. -/
def daysIn (month year : Nat) : Nat :=
  if month = 2 then (if isLeap year then 29 else 28)
  else if month = 4 ∨ month = 6 ∨ month = 9 ∨ month = 11 then 30
  else 31

/-- The representation invariant of a `Time`: a real date and clock. -/
def Time.valid (t : Time) : Prop :=
  1 ≤ t.month ∧ t.month ≤ 12 ∧ 1 ≤ t.day ∧ t.day ≤ daysIn t.month t.year ∧
    t.hour < 24 ∧ t.minute < 60 ∧ t.second < 60 ∧ t.nsec < 1000000000

instance (t : Time) : Decidable t.valid := by
  unfold Time.valid; infer_instance

/-- The decimal digit of `n % 10`. -/
def digitChar (n : Nat) : Char :=
  Char.ofNat (48 + n % 10)

/-- The predicate `'0' <= c && c <= '9'`. -/
def isDigit (c : Char) : Bool :=
  48 ≤ c.toNat && c.toNat ≤ 57

/-- Go `appendInt(b, x, 2)` for `x < 100`. -/
def appendInt2 (x : Nat) : List Char :=
  [digitChar (x / 10), digitChar x]

/-- Go `appendInt(b, x, 4)` for `x < 10000`. -/
def appendInt4 (x : Nat) : List Char :=
  [digitChar (x / 1000), digitChar (x / 100), digitChar (x / 10), digitChar x]

/-- The fractional second of `appendFormatRFC3339(b, true)`: nothing for a whole
second, otherwise a point and nine digits without the trailing zeros. -/
def formatNano (nsec : Nat) : List Char :=
  if nsec = 0 then []
  else
    Char.ofNat 46 ::
      ([digitChar (nsec / 100000000), digitChar (nsec / 10000000), digitChar (nsec / 1000000),
        digitChar (nsec / 100000), digitChar (nsec / 10000), digitChar (nsec / 1000),
        digitChar (nsec / 100), digitChar (nsec / 10), digitChar nsec].reverse.dropWhile
          (fun c => c.toNat == 48)).reverse

/-- The zone of `appendFormatRFC3339`: `Z` for offset 0, otherwise the sign and
`hh:mm` of the offset. -/
def formatZone (offset : Int) : List Char :=
  if offset = 0 then [Char.ofNat 90]
  else
    (if offset < 0 then Char.ofNat 45 else Char.ofNat 43) ::
      (appendInt2 (offset.natAbs / 60) ++ Char.ofNat 58 :: appendInt2 (offset.natAbs % 60))

/-- Go `Time.appendFormatRFC3339(b, true)`: the layout `RFC3339Nano`. -/
def formatRFC3339 (t : Time) : List Char :=
  appendInt4 t.year ++ Char.ofNat 45 :: appendInt2 t.month ++ Char.ofNat 45 ::
    appendInt2 t.day ++ Char.ofNat 84 :: appendInt2 t.hour ++ Char.ofNat 58 ::
    appendInt2 t.minute ++ Char.ofNat 58 :: appendInt2 t.second ++ formatNano t.nsec ++
    formatZone t.offset

/-- Go `Time.MarshalJSON` (`appendStrictRFC3339` between quotes): fails on a year
above 9999 and on a zone hour above 23. -/
def timeMarshalJSON (t : Time) : Except String (List Char) :=
  if 9999 < t.year then Except.error "Time.MarshalJSON: year outside of range [0,9999]"
  else if 24 ≤ t.offset.natAbs / 60 then
    Except.error "Time.MarshalJSON: timezone hour outside of range [0,23]"
  else Except.ok (Char.ofNat 34 :: formatRFC3339 t ++ [Char.ofNat 34])

/-- The loop of the closure `parseUint` in Go `parseRFC3339`: the decimal value of
a run of digits, none when a character is not a digit. -/
def parseDigits (acc : Nat) : List Char → Option Nat
  | [] => some acc
  | c :: cs => if isDigit c then parseDigits (acc * 10 + (c.toNat - 48)) cs else none

/-- The closure `parseUint` in Go `parseRFC3339`: digits only, value within
`min` and `max`. -/
def parseUint (s : List Char) (min max : Nat) : Option Nat :=
  match parseDigits 0 s with
  | none => none
  | some x => if min ≤ x ∧ x ≤ max then some x else none

/-- The fractional second in Go `parseRFC3339`: a point followed by digits; at most
nine digits count (`parseNanoseconds`). -/
def parseFraction (s : List Char) : Nat × List Char :=
  match s with
  | p :: d :: rest =>
    if p.toNat = 46 ∧ isDigit d = true then
      let ds := ((d :: rest).takeWhile isDigit).take 9
      ((parseDigits 0 ds).getD 0 * 10 ^ (9 - ds.length), (d :: rest).dropWhile isDigit)
    else (0, s)
  | _ => (0, s)

/-- The time zone in Go `parseRFC3339`: `Z`, or a sign and `hh:mm`. -/
def parseZone (s : List Char) : Option Int :=
  match s with
  | [z] => if z.toNat = 90 then some 0 else none
  | [sg, h1, h2, c, m1, m2] =>
    match parseUint [h1, h2] 0 23, parseUint [m1, m2] 0 59 with
    | some hr, some mm =>
      if (sg.toNat = 45 ∨ sg.toNat = 43) ∧ c.toNat = 58 then
        some (if sg.toNat = 45 then -((hr * 60 + mm : Nat) : Int) else ((hr * 60 + mm : Nat) : Int))
      else none
    | _, _ => none
  | _ => none

/-- Go `time.parseRFC3339`, the strict parser that `Time.UnmarshalJSON` tries
first. -/
def parseRFC3339 (s : List Char) : Option Time :=
  match s with
  | y1 :: y2 :: y3 :: y4 :: p1 :: m1 :: m2 :: p2 :: d1 :: d2 :: pt :: h1 :: h2 :: c1 ::
      n1 :: n2 :: c2 :: s1 :: s2 :: rest =>
    match parseUint [y1, y2, y3, y4] 0 9999 with
    | none => none
    | some year =>
      match parseUint [m1, m2] 1 12 with
      | none => none
      | some month =>
        match parseUint [d1, d2] 1 (daysIn month year), parseUint [h1, h2] 0 23,
          parseUint [n1, n2] 0 59, parseUint [s1, s2] 0 59 with
        | some day, some hour, some minute, some second =>
          if p1.toNat = 45 ∧ p2.toNat = 45 ∧ pt.toNat = 84 ∧ c1.toNat = 58 ∧ c2.toNat = 58 then
            match parseZone (parseFraction rest).2 with
            | none => none
            | some offset =>
              some
                { year := year, month := month, day := day, hour := hour, minute := minute,
                  second := second, nsec := (parseFraction rest).1, offset := offset }
          else none
        | _, _, _, _ => none
  | _ => none

/-- Go `Time.UnmarshalJSON` on the bytes between the quotes of a JSON string (which
it does not unescape): the strict parser and, when that fails, the general layout
parser `time.Parse(RFC3339, s)`, which is the parameter `lenient`. -/
def timeUnmarshal (lenient : List Char → Except String Time) (raw : List Char) :
    Except String Time :=
  match parseRFC3339 raw with
  | some t => Except.ok t
  | none => lenient raw

/-- Go `oauth2.Token`, the fields of the exported struct. -/
structure oauth2Token where
  AccessToken : String
  TokenType : String
  RefreshToken : String
  Expiry : Time
  deriving DecidableEq

/-- The struct `remoteTokenRequest`. -/
structure remoteTokenRequest where
  Email : String
  Scopes : List String
  deriving DecidableEq

/-- The struct `remoteTokenResponse`. -/
structure remoteTokenResponse where
  AccessToken : String
  Expiry : Time
  deriving DecidableEq

/-! ### Package `encoding/json` -/

/-- The characters the JSON scanner skips: space, tab, carriage return, newline. -/
def isJSONSpace (c : Char) : Bool :=
  c.toNat == 32 || c.toNat == 9 || c.toNat == 13 || c.toNat == 10

/-- Skip JSON white space. -/
def skipSpace (s : List Char) : List Char :=
  s.dropWhile isJSONSpace

/-- A hexadecimal digit, either case. -/
def isHex (c : Char) : Bool :=
  (48 ≤ c.toNat && c.toNat ≤ 57) || (97 ≤ c.toNat && c.toNat ≤ 102) ||
    (65 ≤ c.toNat && c.toNat ≤ 70)

/-- The value of a hexadecimal digit. -/
def hexVal (c : Char) : Nat :=
  if c.toNat ≤ 57 then c.toNat - 48 else if 97 ≤ c.toNat then c.toNat - 87 else c.toNat - 55

/-- The lower-case hexadecimal digit of `n % 16` (Go `hex[n]`). -/
def hexChar (n : Nat) : Char :=
  if n % 16 < 10 then Char.ofNat (48 + n % 16) else Char.ofNat (87 + n % 16)

/-- The characters that may follow a backslash besides `u`:
`"`, `\`, `/`, `b`, `f`, `n`, `r`, `t`. -/
def isSimpleEscape (c : Char) : Bool :=
  c.toNat == 34 || c.toNat == 92 || c.toNat == 47 || c.toNat == 98 || c.toNat == 102 ||
    c.toNat == 110 || c.toNat == 114 || c.toNat == 116

/-- A character that stands for itself inside a JSON string: not a control
character, not the quote, not the backslash. -/
def plainChar (c : Char) : Prop :=
  32 ≤ c.toNat ∧ c.toNat ≠ 34 ∧ c.toNat ≠ 92

instance (c : Char) : Decidable (plainChar c) := by
  unfold plainChar; infer_instance

/-- The states of the JSON scanner inside a string (Go `stateInString`,
`stateInStringEsc`, `stateInStringEscU`, `stateInStringEscU1`, ...). -/
inductive StringState where
  | inString
  | inStringEsc
  | inStringEscU
  | inStringEscU1
  | inStringEscU12
  | inStringEscU123
  deriving DecidableEq

/-- Put the character `c` in front of the raw text of a scanned string. -/
def consRaw (c : Char) (r : Option (List Char × List Char)) : Option (List Char × List Char) :=
  r.map (fun p => (c :: p.1, p.2))

/-- The scanner inside a string, one character at a time: the raw text up to the
closing quote and what follows the quote.  Control characters and malformed
escapes are syntax errors. -/
def scanStringFrom : StringState → List Char → Option (List Char × List Char)
  | _, [] => none
  | StringState.inString, c :: cs =>
    if c.toNat = 34 then some ([], cs)
    else if c.toNat = 92 then consRaw c (scanStringFrom StringState.inStringEsc cs)
    else if c.toNat < 32 then none
    else consRaw c (scanStringFrom StringState.inString cs)
  | StringState.inStringEsc, c :: cs =>
    if isSimpleEscape c then consRaw c (scanStringFrom StringState.inString cs)
    else if c.toNat = 117 then consRaw c (scanStringFrom StringState.inStringEscU cs)
    else none
  | StringState.inStringEscU, c :: cs =>
    if isHex c then consRaw c (scanStringFrom StringState.inStringEscU1 cs) else none
  | StringState.inStringEscU1, c :: cs =>
    if isHex c then consRaw c (scanStringFrom StringState.inStringEscU12 cs) else none
  | StringState.inStringEscU12, c :: cs =>
    if isHex c then consRaw c (scanStringFrom StringState.inStringEscU123 cs) else none
  | StringState.inStringEscU123, c :: cs =>
    if isHex c then consRaw c (scanStringFrom StringState.inString cs) else none

/-- The scanner on a string, after the opening quote. -/
def scanString (s : List Char) : Option (List Char × List Char) :=
  scanStringFrom StringState.inString s

/-- The scanner on a number `-? (0 | [1-9][0-9]*) (. [0-9]+)? ([eE] [+-]? [0-9]+)?`:
what follows the number. -/
def scanNumber (s : List Char) : Option (List Char) :=
  let s1 :=
    match s with
    | c :: cs => if c.toNat = 45 then cs else s
    | [] => s
  match s1 with
  | [] => none
  | c :: cs =>
    let afterInt :=
      if c.toNat = 48 then some cs
      else if 49 ≤ c.toNat ∧ c.toNat ≤ 57 then some (cs.dropWhile isDigit)
      else none
    match afterInt with
    | none => none
    | some s2 =>
      let afterFrac :=
        match s2 with
        | p :: ds =>
          if p.toNat = 46 then
            match ds with
            | x :: xs => if isDigit x then some (xs.dropWhile isDigit) else none
            | [] => none
          else some s2
        | [] => some s2
      match afterFrac with
      | none => none
      | some s3 =>
        match s3 with
        | e :: es =>
          if e.toNat = 101 ∨ e.toNat = 69 then
            let es2 :=
              match es with
              | sg :: r => if sg.toNat = 43 ∨ sg.toNat = 45 then r else es
              | [] => es
            match es2 with
            | x :: xs => if isDigit x then some (xs.dropWhile isDigit) else none
            | [] => none
          else some s3
        | [] => some s3

/-- What the decoder of a struct needs to know of a JSON value: its kind and, for
a string, its raw text. -/
inductive Shallow where
  | null
  | bool
  | number
  | string (raw : List Char)
  | array
  | object
  deriving DecidableEq

/-- A scanned JSON value: its kind and, for an object, its members in order, each
with the raw text of its key. -/
structure Parsed where
  kind : Shallow
  members : List (List Char × Shallow)
  deriving DecidableEq

/-- Go `maxNestingDepth`. -/
def maxNestingDepth : Nat := 10000

mutual

/-- The JSON scanner on one value; `s` starts at the value.  `fuel` bounds the
recursion, `depth` is the number of enclosing arrays and objects. -/
def parseValue : Nat → Nat → List Char → Option (Parsed × List Char)
  | 0, _, _ => none
  | fuel + 1, depth, s =>
    match s with
    | [] => none
    | c :: cs =>
      if c.toNat = 123 then
        if maxNestingDepth ≤ depth then none
        else
          match skipSpace cs with
          | [] => none
          | c2 :: cs2 =>
            if c2.toNat = 125 then some ({ kind := Shallow.object, members := [] }, cs2)
            else
              match parseMembers fuel (depth + 1) (c2 :: cs2) with
              | none => none
              | some (ms, rest) => some ({ kind := Shallow.object, members := ms }, rest)
      else if c.toNat = 91 then
        if maxNestingDepth ≤ depth then none
        else
          match skipSpace cs with
          | [] => none
          | c2 :: cs2 =>
            if c2.toNat = 93 then some ({ kind := Shallow.array, members := [] }, cs2)
            else
              match parseElements fuel (depth + 1) (c2 :: cs2) with
              | none => none
              | some rest => some ({ kind := Shallow.array, members := [] }, rest)
      else if c.toNat = 34 then
        match scanString cs with
        | none => none
        | some (raw, rest) => some ({ kind := Shallow.string raw, members := [] }, rest)
      else if c.toNat = 116 then
        if cs.take 3 = "rue".data then some ({ kind := Shallow.bool, members := [] }, cs.drop 3)
        else none
      else if c.toNat = 102 then
        if cs.take 4 = "alse".data then some ({ kind := Shallow.bool, members := [] }, cs.drop 4)
        else none
      else if c.toNat = 110 then
        if cs.take 3 = "ull".data then some ({ kind := Shallow.null, members := [] }, cs.drop 3)
        else none
      else
        match scanNumber (c :: cs) with
        | none => none
        | some rest => some ({ kind := Shallow.number, members := [] }, rest)

/-- The scanner inside an array, at an element: the elements up to the closing
bracket; returns what follows the bracket. -/
def parseElements : Nat → Nat → List Char → Option (List Char)
  | 0, _, _ => none
  | fuel + 1, depth, s =>
    match parseValue fuel depth s with
    | none => none
    | some (_, rest) =>
      match skipSpace rest with
      | [] => none
      | c :: cs =>
        if c.toNat = 93 then some cs
        else if c.toNat = 44 then parseElements fuel depth (skipSpace cs)
        else none

/-- The scanner inside an object, at a key: the members up to the closing brace;
returns them and what follows the brace. -/
def parseMembers : Nat → Nat → List Char → Option (List (List Char × Shallow) × List Char)
  | 0, _, _ => none
  | fuel + 1, depth, s =>
    match s with
    | [] => none
    | q :: s1 =>
      if q.toNat = 34 then
        match scanString s1 with
        | none => none
        | some (key, s2) =>
          match skipSpace s2 with
          | [] => none
          | colon :: s3 =>
            if colon.toNat = 58 then
              match parseValue fuel depth (skipSpace s3) with
              | none => none
              | some (v, s4) =>
                match skipSpace s4 with
                | [] => none
                | c :: cs =>
                  if c.toNat = 125 then some ([(key, v.kind)], cs)
                  else if c.toNat = 44 then
                    match parseMembers fuel depth (skipSpace cs) with
                    | none => none
                    | some (ms, rest) => some ((key, v.kind) :: ms, rest)
                  else none
            else none
      else none

end

/-- Go `utf16.IsSurrogate`. -/
def isSurrogate (r : Nat) : Bool :=
  0xD800 ≤ r && r < 0xE000

/-- The value of four hexadecimal digits (Go `getu4`, on scanned text). -/
def hex4 (h1 h2 h3 h4 : Char) : Nat :=
  ((hexVal h1 * 16 + hexVal h2) * 16 + hexVal h3) * 16 + hexVal h4

/-- One escape of Go `unquoteBytes`, `s` being the text after a backslash: the
rune it stands for and the number of characters of `s` it takes.  A `\u`
surrogate pair is combined; a lone surrogate becomes U+FFFD. -/
def unescape (s : List Char) : Option (Char × Nat) :=
  match s with
  | [] => none
  | e :: cs2 =>
    if e.toNat = 117 then
      match cs2 with
      | h1 :: h2 :: h3 :: h4 :: cs3 =>
        let rr := hex4 h1 h2 h3 h4
        if isSurrogate rr then
          match cs3 with
          | b :: u :: g1 :: g2 :: g3 :: g4 :: _ =>
            if b.toNat = 92 ∧ u.toNat = 117 ∧ isHex g1 ∧ isHex g2 ∧ isHex g3 ∧ isHex g4 ∧
                rr < 0xDC00 ∧ 0xDC00 ≤ hex4 g1 g2 g3 g4 ∧ hex4 g1 g2 g3 g4 < 0xE000 then
              some (Char.ofNat ((rr - 0xD800) * 1024 + (hex4 g1 g2 g3 g4 - 0xDC00) + 0x10000),
                11)
            else some (Char.ofNat 0xFFFD, 5)
          | _ => some (Char.ofNat 0xFFFD, 5)
        else some (Char.ofNat rr, 5)
      | _ => none
    else
      some
        (if e.toNat = 98 then Char.ofNat 8
          else if e.toNat = 102 then Char.ofNat 12
          else if e.toNat = 110 then Char.ofNat 10
          else if e.toNat = 114 then Char.ofNat 13
          else if e.toNat = 116 then Char.ofNat 9
          else e, 1)

/-- The loop of Go `unquoteBytes`; `skip` counts the characters of an escape that
are still to be passed over. -/
def unquoteFrom : Nat → List Char → List Char
  | _, [] => []
  | skip + 1, _ :: cs => unquoteFrom skip cs
  | 0, c :: cs =>
    if c.toNat = 92 then
      match unescape cs with
      | none => []
      | some (r, n) => r :: unquoteFrom n cs
    else c :: unquoteFrom 0 cs

/-- Go `unquoteBytes` on the raw text of a scanned string: resolve the escapes. -/
def unquote (s : List Char) : List Char :=
  unquoteFrom 0 s

/-- Go `foldName` as far as the comparison with an ASCII field name goes: ASCII
letters are upper-cased, and the two other runes whose case fold is an ASCII
letter, U+017F and U+212A, become `S` and `K`. -/
def foldRune (c : Char) : Char :=
  if 97 ≤ c.toNat ∧ c.toNat ≤ 122 then Char.ofNat (c.toNat - 32)
  else if c.toNat = 0x17F then Char.ofNat 83
  else if c.toNat = 0x212A then Char.ofNat 75
  else c

/-- The struct field that a key names: exact match or match under case folding. -/
def keyIs (key : List Char) (field : String) : Bool :=
  (unquote key).map foldRune == field.data.map foldRune

/-- The name of a JSON kind in an `UnmarshalTypeError`. -/
def Shallow.name : Shallow → String
  | Shallow.null => "null"
  | Shallow.bool => "bool"
  | Shallow.number => "number"
  | Shallow.string _ => "string"
  | Shallow.array => "array"
  | Shallow.object => "object"

/-- The decoder of `encoding/json` on the members of an object, into a
`remoteTokenResponse`.  A value of the wrong kind for `access_token` is recorded
(`saved`, the first one is reported at the end) and decoding goes on; an error of
`Time.UnmarshalJSON` ends decoding; `null` leaves a field as it is; unknown keys
are skipped; a repeated key overwrites. -/
def decodeMembers (lenient : List Char → Except String Time) :
    List (List Char × Shallow) → remoteTokenResponse → Option String →
      Except String remoteTokenResponse
  | [], resp, none => Except.ok resp
  | [], _, some err => Except.error err
  | (key, v) :: ms, resp, saved =>
    if keyIs key "access_token" then
      match v with
      | Shallow.string raw =>
        decodeMembers lenient ms { resp with AccessToken := ⟨unquote raw⟩ } saved
      | Shallow.null => decodeMembers lenient ms resp saved
      | other =>
        decodeMembers lenient ms resp
          (saved.orElse fun _ =>
            some ("json: cannot unmarshal " ++ other.name ++
              " into Go struct field remoteTokenResponse.access_token of type string"))
    else if keyIs key "expiry" then
      match v with
      | Shallow.string raw =>
        match timeUnmarshal lenient raw with
        | Except.ok t => decodeMembers lenient ms { resp with Expiry := t } saved
        | Except.error err => Except.error err
      | Shallow.null => decodeMembers lenient ms resp saved
      | _ => Except.error "Time.UnmarshalJSON: input is not a JSON string"
    else decodeMembers lenient ms resp saved

/-- Go `json.Unmarshal(data, &tokenResp)` on a zero `remoteTokenResponse`: the
whole input must be one JSON value between white space; an object is decoded
member by member, `null` changes nothing, any other value is a type error.  The
texts of the errors are abbreviated. -/
def jsonUnmarshal (lenient : List Char → Except String Time) (data : String) :
    Except String remoteTokenResponse :=
  match parseValue (2 * data.data.length + 2) 0 (skipSpace data.data) with
  | none => Except.error "invalid character"
  | some (v, rest) =>
    if skipSpace rest ≠ [] then Except.error "invalid character"
    else
      match v.kind with
      | Shallow.object =>
        decodeMembers lenient v.members { AccessToken := "", Expiry := Time.zero } none
      | Shallow.null => Except.ok { AccessToken := "", Expiry := Time.zero }
      | other =>
        Except.error
          ("json: cannot unmarshal " ++ other.name ++
            " into Go value of type googleapi.remoteTokenResponse")

/-- The escape of one rune in a JSON string written by `encoding/json` (with HTML
escaping, the default): `\"`, `\\`, `\b`, `\f`, `\n`, `\r`, `\t`; `\u00XX` for the
other control characters and for `<`, `>`, `&`; `\u2028` and `\u2029`; every other
rune as it is. -/
def escapeRune (c : Char) : List Char :=
  if c.toNat = 34 ∨ c.toNat = 92 then [Char.ofNat 92, c]
  else if c.toNat = 8 then [Char.ofNat 92, Char.ofNat 98]
  else if c.toNat = 12 then [Char.ofNat 92, Char.ofNat 102]
  else if c.toNat = 10 then [Char.ofNat 92, Char.ofNat 110]
  else if c.toNat = 13 then [Char.ofNat 92, Char.ofNat 114]
  else if c.toNat = 9 then [Char.ofNat 92, Char.ofNat 116]
  else if c.toNat < 32 ∨ c.toNat = 60 ∨ c.toNat = 62 ∨ c.toNat = 38 then
    [Char.ofNat 92, Char.ofNat 117, Char.ofNat 48, Char.ofNat 48, hexChar (c.toNat / 16),
      hexChar c.toNat]
  else if c.toNat = 0x2028 ∨ c.toNat = 0x2029 then
    [Char.ofNat 92, Char.ofNat 117, Char.ofNat 50, Char.ofNat 48, Char.ofNat 50,
      hexChar c.toNat]
  else [c]

/-- The text of a JSON string written by `encoding/json`, without its quotes. -/
def escapeString (s : String) : List Char :=
  s.data.flatMap escapeRune

/-- Go `json.Marshal` on a `remoteTokenResponse`: the object with the keys
`access_token` and `expiry`, in the order of the fields. -/
def jsonMarshalResponse (resp : remoteTokenResponse) : Except String String :=
  match timeMarshalJSON resp.Expiry with
  | Except.error err => Except.error ("json: error calling MarshalJSON for type time.Time: " ++ err)
  | Except.ok t =>
    Except.ok
      ⟨"\x7b\"access_token\":\"".data ++ escapeString resp.AccessToken ++
        "\",\"expiry\":".data ++ t ++ "\x7d".data⟩

/-! ### Package `net/http` and the token source -/

/-- Go `http.Header`: a map from (canonical) key to the list of its values. -/
abbrev Header := List (String × List String)

/-- Go `Header.Set`: replace the values of `key` by the single `value`. -/
def Header.Set (h : Header) (key value : String) : Header :=
  (key, [value]) :: h.filter (fun kv => kv.1 != key)

/-- Go map lookup `h[key]`: the values of `key`, when the key is present. -/
def Header.Values (h : Header) (key : String) : Option (List String) :=
  (h.find? (fun kv => kv.1 == key)).map Prod.snd

/-- Go `http.Request`, the fields that `Token` sets. -/
structure Request where
  Method : String
  URL : String
  Header : Header
  Body : String
  deriving DecidableEq

/-- Go `http.Response` as `Token` uses it: the status code and the outcome of
`io.ReadAll(resp.Body)`. -/
structure Response where
  StatusCode : Int
  Body : Except String String

/-- An `*http.Client`, seen through its method `Do`. -/
abbrev Client := Request → Except String Response

/-- The standard library as used by `Token`; errors are their messages.
* `jsonMarshal` is `json.Marshal` on a `remoteTokenRequest`,
* `urlError` is the error of `http.NewRequest` for a URL, if any,
* `defaultClient` is `&http.Client{Timeout: defaultHTTPTimeout}`,
* `jsonUnmarshal` is `json.Unmarshal` into a zero `remoteTokenResponse`; the
  function `jsonUnmarshal` above is its embedding. -/
structure Stdlib where
  jsonMarshal : remoteTokenRequest → Except String String
  urlError : String → Option String
  defaultClient : Client
  jsonUnmarshal : String → Except String remoteTokenResponse

/-- The struct `remoteTokenSource`; `httpClient` is `none` for a nil pointer. -/
structure remoteTokenSource where
  endpoint : String
  auth : String
  email : String
  scopes : List String
  httpClient : Option Client

/-- Go `http.NewRequest(method, url, body)`: fails on a URL that does not parse,
otherwise a request with an empty header. -/
def NewRequest (lib : Stdlib) (method url body : String) : Except String Request :=
  match lib.urlError url with
  | some err => Except.error err
  | none => Except.ok { Method := method, URL := url, Header := [], Body := body }

/-- Lines 33-50 of `remote_token_source.go`: marshal the request body and build
the HTTP request with its headers. -/
def buildRequest (lib : Stdlib) (r : remoteTokenSource) : Except String Request :=
  match lib.jsonMarshal { Email := r.email, Scopes := r.scopes } with
  | Except.error err => Except.error ("remote token: marshal request: " ++ err)
  | Except.ok body =>
    match NewRequest lib "POST" r.endpoint body with
    | Except.error err => Except.error ("remote token: create request: " ++ err)
    | Except.ok req =>
      let req := { req with Header := req.Header.Set "Content-Type" "application/json" }
      if r.auth ≠ "" then
        Except.ok { req with Header := req.Header.Set "Authorization" ("Bearer " ++ r.auth) }
      else Except.ok req

/-- Lines 52-55: the injected client, or the default one. -/
def clientOf (lib : Stdlib) (r : remoteTokenSource) : Client :=
  match r.httpClient with
  | none => lib.defaultClient
  | some client => client

/-- Lines 57-85 of `remote_token_source.go`: send the request and turn the
response into a token. -/
def exchange (lib : Stdlib) (r : remoteTokenSource) (req : Request) :
    Except String oauth2Token :=
  match clientOf lib r req with
  | Except.error err => Except.error ("remote token: request failed: " ++ err)
  | Except.ok resp =>
    match resp.Body with
    | Except.error err => Except.error ("remote token: read response: " ++ err)
    | Except.ok respBody =>
      if resp.StatusCode ≠ 200 then
        Except.error
          ("remote token: endpoint returned " ++ toString resp.StatusCode ++ ": " ++ respBody)
      else
        match lib.jsonUnmarshal respBody with
        | Except.error err => Except.error ("remote token: parse response: " ++ err)
        | Except.ok tokenResp =>
          if tokenResp.AccessToken = "" then
            Except.error "remote token: endpoint returned empty access token"
          else
            Except.ok
              { AccessToken := tokenResp.AccessToken, TokenType := "", RefreshToken := "",
                Expiry := tokenResp.Expiry }

/-- `remoteTokenSource.Token`. -/
def Token (lib : Stdlib) (r : remoteTokenSource) : Except String oauth2Token :=
  match buildRequest lib r with
  | Except.error err => Except.error err
  | Except.ok req => exchange lib r req

/-- The seven stable tags of the errors of `Token`. -/
def tagged (msg : String) : Prop :=
  strings.Contains msg "marshal request" ∨ strings.Contains msg "create request" ∨
    strings.Contains msg "request failed" ∨ strings.Contains msg "read response" ∨
    strings.Contains msg "endpoint returned" ∨ strings.Contains msg "parse response" ∨
    strings.Contains msg "empty access token"

instance (msg : String) : Decidable (tagged msg) := by
  unfold tagged; infer_instance

/-! ### Sample values for concrete evaluation -/

/-- The instant 2025-01-01T00:00:00Z. -/
def sampleExpiry : Time :=
  { year := 2025, month := 1, day := 1, hour := 0, minute := 0, second := 0, nsec := 0,
    offset := 0 }

/-- A general layout parser that accepts nothing beyond the strict RFC 3339
parser. -/
def sampleLenient : List Char → Except String Time :=
  fun _ => Except.error "parsing time: cannot parse"

/-- The body a server sends for `access-123` expiring at `sampleExpiry`. -/
def sampleBody : String :=
  "\x7b\"access_token\":\"access-123\",\"expiry\":\"2025-01-01T00:00:00Z\"\x7d\n"

/-- The body a server sends for an empty access token. -/
def emptyTokenBody : String :=
  "\x7b\"access_token\":\"\",\"expiry\":\"2025-01-01T00:00:00Z\"\x7d\n"

/-- A stand-in for the standard library, adequate for the sample values: the
marshaller of the request renders strings without escapes, every URL parses, the
decoder is `jsonUnmarshal`, and the default client cannot connect. -/
def sampleLib : Stdlib :=
  { jsonMarshal := fun q =>
      Except.ok ("\x7b\"email\":\"" ++ q.Email ++ "\",\"scopes\":[" ++
        ",".intercalate (q.Scopes.map (fun sc => "\"" ++ sc ++ "\"")) ++ "]\x7d")
    urlError := fun _ => none
    defaultClient := fun _ => Except.error "dial tcp 127.0.0.1:1: connect: connection refused"
    jsonUnmarshal := jsonUnmarshal sampleLenient }

/-- A token source against a server that always answers `status` with `body`. -/
def sampleSource (auth : String) (status : Int) (body : String) : remoteTokenSource :=
  { endpoint := "http://127.0.0.1:8080"
    auth := auth
    email := "user@example.com"
    scopes := ["scope1", "scope2"]
    httpClient := some (fun _ => Except.ok { StatusCode := status, Body := Except.ok body }) }

/-- The request that `sampleSource auth` builds. -/
def sampleRequest (auth : String) : Request :=
  { Method := "POST"
    URL := "http://127.0.0.1:8080"
    Header :=
      if auth = "" then [("Content-Type", ["application/json"])]
      else [("Authorization", ["Bearer " ++ auth]), ("Content-Type", ["application/json"])]
    Body := "\x7b\"email\":\"user@example.com\",\"scopes\":[\"scope1\",\"scope2\"]\x7d" }

end googleapi


/-! ## Properties of `AuthKeyringCmd.Run` -/

namespace cmd

/-! ### Unfolding `Run` along its branches -/

theorem Run_usage_too_many (table : Char → Char) (c : AuthKeyringCmd) (w : World)
    (h1 : (normalizeArgs table c).1 ≠ "") (h2 : (normalizeArgs table c).2 ≠ "") :
    Run table c w = (some (usagef "too many args: %q %q" [c.Backend, c.Backend2]), w) := by
  simp [Run, h1, h2]

theorem Run_usage_invalid (table : Char → Char) (c : AuthKeyringCmd) (w : World)
    (h1 : (normalizeArgs table c).1 ≠ "") (h2 : (normalizeArgs table c).2 = "")
    (h3 : rewriteDefault (normalizeArgs table c).1 ∉ allowed) :
    Run table c w =
      (some (usagef "invalid backend: %q (expected auto, keychain, or file)" [c.Backend]), w) := by
  simp [Run, h1, h2, h3]

theorem Run_write (table : Char → Char) (c : AuthKeyringCmd) (w : World)
    (h1 : (normalizeArgs table c).1 ≠ "") (h2 : (normalizeArgs table c).2 = "")
    (h3 : rewriteDefault (normalizeArgs table c).1 ∈ allowed)
    (hr : w.readErr = none) (hw : w.writeErr = none) :
    (Run table c w).2.config =
        { w.config with KeyringBackend := rewriteDefault (normalizeArgs table c).1 } ∧
      (Run table c w).2.stderr =
        w.stderr ++
          (if strings.TrimSpace w.GOG_KEYRING_BACKEND ≠ "" ∧ w.ui = true ∧ w.isJSON = false ∧
              w.isPlain = false then
            [noteLine (strings.TrimSpace w.GOG_KEYRING_BACKEND)] else []) ∧
      ((w.isJSON = false ∨ w.jsonErr = none) → (Run table c w).1 = none) := by
  simp only [Run, h1, h2, h3, ReadConfig, WriteConfig, hr, hw]
  by_cases hv : strings.TrimSpace w.GOG_KEYRING_BACKEND ≠ "" ∧ w.ui = true ∧ w.isJSON = false ∧
      w.isPlain = false
  · obtain ⟨hv1, hv2, hv3, hv4⟩ := hv
    simp [hv1, hv2, hv3, hv4, errPrintf, outPrintf]
  · rw [if_neg hv, if_neg hv]
    cases hj : w.isJSON <;> cases hu : w.ui <;> cases he : w.jsonErr <;>
      simp [WriteJSON, outPrintf, hj, hu, he]

theorem Run_inspect_config (table : Char → Char) (c : AuthKeyringCmd) (w : World)
    (h1 : (normalizeArgs table c).1 = "") :
    (Run table c w).2.config = w.config := by
  simp only [Run, h1]
  cases hi : w.info <;> cases hj : w.isJSON <;> cases hu : w.ui <;> cases he : w.jsonErr <;>
    simp [WriteJSON, outPrintf, errPrintf, hj, hu, he]

theorem Run_fail_before_write (table : Char → Char) (c : AuthKeyringCmd) (w : World)
    (h1 : (normalizeArgs table c).1 ≠ "")
    (h : (normalizeArgs table c).2 ≠ "" ∨ rewriteDefault (normalizeArgs table c).1 ∉ allowed ∨
      w.readErr ≠ none ∨ w.writeErr ≠ none) :
    (Run table c w).1 ≠ none ∧ (Run table c w).2 = w := by
  by_cases h2 : (normalizeArgs table c).2 = ""
  · by_cases h3 : rewriteDefault (normalizeArgs table c).1 ∈ allowed
    · cases hr : w.readErr with
      | some e => simp [Run, h1, h2, h3, ReadConfig, hr]
      | none =>
        cases hw : w.writeErr with
        | some e => simp [Run, h1, h2, h3, ReadConfig, WriteConfig, hr, hw]
        | none => simp [h2, h3, hr, hw] at h
    · rw [Run_usage_invalid table c w h1 h2 h3]; simp
  · rw [Run_usage_too_many table c w h1 h2]; simp

theorem normalizeArgs_single (table : Char → Char) (B : String)
    (h : strings.ToLower table (strings.TrimSpace B) ≠ "set") :
    normalizeArgs table ⟨B, ""⟩ = (strings.ToLower table (strings.TrimSpace B), "") := by
  have h0 : strings.ToLower table (strings.TrimSpace "") = "" := rfl
  simp [normalizeArgs, h, h0]

theorem normalizeArgs_single_set (table : Char → Char) (B : String)
    (h : strings.ToLower table (strings.TrimSpace B) = "set") :
    normalizeArgs table ⟨B, ""⟩ = ("", "") := by
  have h0 : strings.ToLower table (strings.TrimSpace "") = "" := rfl
  simp [normalizeArgs, h, h0]

theorem normalizeArgs_set (table : Char → Char) (B : String) :
    normalizeArgs table ⟨"set", B⟩ = (strings.ToLower table (strings.TrimSpace B), "") := by
  have h0 : strings.ToLower table (strings.TrimSpace "set") = "set" := rfl
  simp [normalizeArgs, h0]

theorem rewriteDefault_mem (b : String) (h : b ∈ ["auto", "keychain", "file", "default"]) :
    rewriteDefault b ∈ allowed := by
  simp only [List.mem_cons, List.mem_singleton, List.not_mem_nil, or_false] at h
  rcases h with h | h | h | h <;> subst h <;> decide

/-- When the effective backend is the same, the persisted config after `Run` is
the same, whatever the raw arguments were. -/
theorem Run_config_congr (table : Char → Char) (c c2 : AuthKeyringCmd) (w : World)
    (h : normalizeArgs table c = normalizeArgs table c2) :
    (Run table c w).2.config = (Run table c2 w).2.config := by
  by_cases h1 : (normalizeArgs table c).1 = ""
  · rw [Run_inspect_config table c w h1, Run_inspect_config table c2 w (h ▸ h1)]
  · by_cases hgood : (normalizeArgs table c).2 = "" ∧
        rewriteDefault (normalizeArgs table c).1 ∈ allowed ∧ w.readErr = none ∧
        w.writeErr = none
    · obtain ⟨h2, h3, hr, hw⟩ := hgood
      rw [(Run_write table c w h1 h2 h3 hr hw).1,
        (Run_write table c2 w (h ▸ h1) (h ▸ h2) (h ▸ h3) hr hw).1, h]
    · have hbad : (normalizeArgs table c).2 ≠ "" ∨
          rewriteDefault (normalizeArgs table c).1 ∉ allowed ∨
          w.readErr ≠ none ∨ w.writeErr ≠ none := by
        by_contra hcon
        simp only [not_or, not_not] at hcon
        exact hgood hcon
      rw [(Run_fail_before_write table c w h1 hbad).2,
        (Run_fail_before_write table c2 w (h ▸ h1) (h ▸ hbad)).2]

/-- C1 (counterexample): the single arguments `set` and a lone blank are not in
the legal set after normalisation and the `default` rewrite, yet `Run` does not
fail: it takes the inspect branch, returns `nil` and prints the report. -/
theorem C1_counterexample_inspect_instead_of_usage :
    rewriteDefault (strings.ToLower id (strings.TrimSpace "set")) ∉ allowed ∧
    (Run id ⟨"set", ""⟩ sampleWorld).1 = none ∧
    (Run id ⟨"set", ""⟩ sampleWorld).2.stderr = ["Hint: gog auth keyring <auto|keychain|file>"] ∧
    rewriteDefault (strings.ToLower id (strings.TrimSpace " ")) ∉ allowed ∧
    (Run id ⟨" ", ""⟩ sampleWorld).1 = none := by
  decide

/-- C1 (amended): for every pair of arguments whose effective backend (the
trimmed, lower-cased first argument, or the second one after a leading `set`) is,
after the `default` to `auto` rewrite, not one of `auto`, `keychain`, `file`, and
for every config, environment and output mode, `Run` leaves the persisted config
exactly as it was; and when that effective backend is moreover non-empty, `Run`
fails with a usage error carrying exit code 2 and changes nothing at all. -/
theorem C1_invalid_backend_usage_error (table : Char → Char) (c : AuthKeyringCmd) (w : World)
    (hbad : rewriteDefault (normalizeArgs table c).1 ∉ allowed) :
    (Run table c w).2.config = w.config ∧
      ((normalizeArgs table c).1 ≠ "" →
        (∃ format args, (Run table c w).1 = some (usagef format args)) ∧
          (Run table c w).1.bind GoError.exitCode = some 2 ∧
          (Run table c w).2 = w) := by
  by_cases hne : (normalizeArgs table c).1 = ""
  · exact ⟨Run_inspect_config table c w hne, fun h => absurd hne h⟩
  · by_cases h2 : (normalizeArgs table c).2 = ""
    · rw [Run_usage_invalid table c w hne h2 hbad]
      exact ⟨rfl, fun _ => ⟨⟨_, _, rfl⟩, rfl, rfl⟩⟩
    · rw [Run_usage_too_many table c w hne h2]
      exact ⟨rfl, fun _ => ⟨⟨_, _, rfl⟩, rfl, rfl⟩⟩

/-- C1 (witness): the argument `nope` of `TestAuthKeyringSet_InvalidBackend`, in a
world whose config holds `keychain`. -/
theorem C1_invalid_backend_usage_error_witness :
    rewriteDefault (normalizeArgs id ⟨"nope", ""⟩).1 ∉ allowed ∧
    (Run id ⟨"nope", ""⟩ { sampleWorld with config := ⟨"keychain", []⟩ }).1 =
      some (GoError.ExitError 2 "invalid backend: %q (expected auto, keychain, or file)"
        ["nope"]) ∧
    (Run id ⟨"nope", ""⟩ { sampleWorld with config := ⟨"keychain", []⟩ }).2.config =
      ⟨"keychain", []⟩ :=
  ⟨by decide, by decide,
    (C1_invalid_backend_usage_error id ⟨"nope", ""⟩
      { sampleWorld with config := ⟨"keychain", []⟩ } (by decide)).1⟩

/-- C2: for every single argument `B` whose trimmed, lower-cased form is `auto`,
`keychain`, `file` or `default`, and every world in which the config read and
write succeed, the config persisted by `Run` is the initial one with
`KeyringBackend` set to the canonical form of `B` (`default` persisted as
`auto`), that value is one of the three legal literals, and `Run` returns `nil`
unless the JSON report cannot be written.  Moreover, on every input whatsoever
`Run` either leaves the persisted config as it was or persists one of the three
legal literals. -/
theorem C2_set_persists_canonical_backend (table : Char → Char) (B : String) (w : World)
    (hB : strings.ToLower table (strings.TrimSpace B) ∈ ["auto", "keychain", "file", "default"])
    (hr : w.readErr = none) (hw : w.writeErr = none) :
    (Run table ⟨B, ""⟩ w).2.config =
        { w.config with
          KeyringBackend :=
            if strings.ToLower table (strings.TrimSpace B) = "default" then "auto"
            else strings.ToLower table (strings.TrimSpace B) } ∧
      (Run table ⟨B, ""⟩ w).2.config.KeyringBackend ∈ ["auto", "keychain", "file"] ∧
      ((w.isJSON = false ∨ w.jsonErr = none) → (Run table ⟨B, ""⟩ w).1 = none) ∧
      (∀ (c2 : AuthKeyringCmd) (w2 : World),
        (Run table c2 w2).2.config = w2.config ∨
          (Run table c2 w2).2.config.KeyringBackend ∈ ["auto", "keychain", "file"]) := by
  have hset : strings.ToLower table (strings.TrimSpace B) ≠ "set" := by
    intro h; rw [h] at hB; revert hB; decide
  have hne : strings.ToLower table (strings.TrimSpace B) ≠ "" := by
    intro h; rw [h] at hB; revert hB; decide
  have hn := normalizeArgs_single table B hset
  have h1 : (normalizeArgs table ⟨B, ""⟩).1 ≠ "" := by rw [hn]; exact hne
  have h2 : (normalizeArgs table ⟨B, ""⟩).2 = "" := by rw [hn]
  have h3 : rewriteDefault (normalizeArgs table ⟨B, ""⟩).1 ∈ allowed := by
    rw [hn]; exact rewriteDefault_mem _ hB
  obtain ⟨hc, -, hret⟩ := Run_write table ⟨B, ""⟩ w h1 h2 h3 hr hw
  rw [hn] at hc h3
  refine ⟨hc, ?_, hret, ?_⟩
  · rw [hc]; exact h3
  · intro c2 w2
    by_cases g1 : (normalizeArgs table c2).1 = ""
    · exact Or.inl (Run_inspect_config table c2 w2 g1)
    · by_cases hgood : (normalizeArgs table c2).2 = "" ∧
          rewriteDefault (normalizeArgs table c2).1 ∈ allowed ∧ w2.readErr = none ∧
          w2.writeErr = none
      · obtain ⟨g2, g3, gr, gw⟩ := hgood
        right
        rw [(Run_write table c2 w2 g1 g2 g3 gr gw).1]
        exact g3
      · left
        have hbad : (normalizeArgs table c2).2 ≠ "" ∨
            rewriteDefault (normalizeArgs table c2).1 ∉ allowed ∨
            w2.readErr ≠ none ∨ w2.writeErr ≠ none := by
          by_contra hcon
          simp only [not_or, not_not] at hcon
          exact hgood hcon
        rw [(Run_fail_before_write table c2 w2 g1 hbad).2]

/-- C2 (witness): the argument ` Default `, in text mode, on a config that holds
`file` and one more field. -/
theorem C2_set_persists_canonical_backend_witness :
    (Run id ⟨" Default ", ""⟩
        { sampleWorld with config := ⟨"file", [("account", "a@b.c")]⟩ }).2.config =
      ⟨"auto", [("account", "a@b.c")]⟩ ∧
    (Run id ⟨" Default ", ""⟩
        { sampleWorld with config := ⟨"file", [("account", "a@b.c")]⟩ }).1 = none :=
  have h := C2_set_persists_canonical_backend id " Default "
    { sampleWorld with config := ⟨"file", [("account", "a@b.c")]⟩ } (by decide) rfl rfl
  ⟨h.1, h.2.2.1 (Or.inl rfl)⟩

/-- C3: for every string `B` and every world (config, environment, output mode),
`Run` with the two arguments `set`, `B` leaves the same persisted config as `Run`
with the single argument `B`. -/
theorem C3_legacy_set_same_persisted_config (table : Char → Char) (B : String) (w : World) :
    (Run table ⟨"set", B⟩ w).2.config = (Run table ⟨B, ""⟩ w).2.config := by
  by_cases hset : strings.ToLower table (strings.TrimSpace B) = "set"
  · have hn1 := normalizeArgs_set table B
    have hn2 := normalizeArgs_single_set table B hset
    rw [hset] at hn1
    have h1 : (normalizeArgs table ⟨"set", B⟩).1 ≠ "" := by rw [hn1]; decide
    have h3 : rewriteDefault (normalizeArgs table ⟨"set", B⟩).1 ∉ allowed := by
      rw [hn1]; decide
    rw [(Run_fail_before_write table ⟨"set", B⟩ w h1 (Or.inr (Or.inl h3))).2,
      Run_inspect_config table ⟨B, ""⟩ w (by rw [hn2])]
  · exact Run_config_congr table ⟨"set", B⟩ ⟨B, ""⟩ w
      ((normalizeArgs_set table B).trans (normalizeArgs_single table B hset).symm)

/-- C4 (counterexample): with a blank first argument and the second argument
`file`, the first argument does not normalise to `set` and a second argument is
supplied, yet `Run` returns `nil` and prints the inspect report; and with the
arguments `file` and a lone blank, `Run` returns `nil` and writes the config. -/
theorem C4_counterexample_two_args_accepted :
    strings.ToLower id (strings.TrimSpace " ") ≠ "set" ∧
    (Run id ⟨" ", "file"⟩ sampleWorld).1 = none ∧
    (Run id ⟨" ", "file"⟩ sampleWorld).2.stdout =
      [Output.line "path\t/home/u/.config/gogcli/config.json",
       Output.line "keyring_backend\tauto", Output.line "source\tdefault"] ∧
    strings.ToLower id (strings.TrimSpace "file") ≠ "set" ∧
    (Run id ⟨"file", " "⟩ sampleWorld).1 = none ∧
    (Run id ⟨"file", " "⟩ sampleWorld).2.config.KeyringBackend = "file" := by
  decide

/-- C4 (amended): for every pair of arguments `A`, `B` in which the trimmed,
lower-cased `A` is non-empty and is not `set`, and the trimmed `B` is non-empty,
`Run` fails with the usage error `too many args`, carrying exit code 2, and
neither prints anything (no inspect report) nor writes the config: the world is
left as it was. -/
theorem C4_too_many_args_usage_error (table : Char → Char) (A B : String) (w : World)
    (hA : strings.ToLower table (strings.TrimSpace A) ≠ "")
    (hset : strings.ToLower table (strings.TrimSpace A) ≠ "set")
    (hB : strings.TrimSpace B ≠ "") :
    (Run table ⟨A, B⟩ w).1 = some (usagef "too many args: %q %q" [A, B]) ∧
      (Run table ⟨A, B⟩ w).1.bind GoError.exitCode = some 2 ∧
      (Run table ⟨A, B⟩ w).2.stdout = w.stdout ∧
      (Run table ⟨A, B⟩ w).2.stderr = w.stderr ∧
      (Run table ⟨A, B⟩ w).2.config = w.config ∧
      (Run table ⟨A, B⟩ w).2 = w := by
  have hB2 : strings.ToLower table (strings.TrimSpace B) ≠ "" := by
    intro h
    apply hB
    have hd : (strings.ToLower table (strings.TrimSpace B)).data = [] := by rw [h]
    simp only [strings.ToLower, List.map_eq_nil_iff] at hd
    exact String.ext hd
  have hn : normalizeArgs table ⟨A, B⟩ =
      (strings.ToLower table (strings.TrimSpace A),
        strings.ToLower table (strings.TrimSpace B)) := by
    simp [normalizeArgs, hset]
  rw [Run_usage_too_many table ⟨A, B⟩ w (by rw [hn]; exact hA) (by rw [hn]; exact hB2)]
  exact ⟨rfl, rfl, rfl, rfl, rfl, rfl⟩

/-- C4 (witness): the arguments `file` and `keychain`. -/
theorem C4_too_many_args_usage_error_witness :
    strings.ToLower id (strings.TrimSpace "file") ≠ "" ∧
    strings.ToLower id (strings.TrimSpace "file") ≠ "set" ∧
    strings.TrimSpace "keychain" ≠ "" ∧
    (Run id ⟨"file", "keychain"⟩ sampleWorld).1 =
      some (GoError.ExitError 2 "too many args: %q %q" ["file", "keychain"]) ∧
    (Run id ⟨"file", "keychain"⟩ sampleWorld).2.config = sampleWorld.config :=
  have h := C4_too_many_args_usage_error id "file" "keychain" sampleWorld
    (by decide) (by decide) (by decide)
  ⟨by decide, by decide, by decide, h.1, h.2.2.2.2.1⟩

/-- C10: in a set-mode run of `Run` (effective backend legal, no extra argument)
in which the config read and write succeed and a UI is bound, the lines written to
standard error are exactly the one NOTE line about the environment override when
the trimmed value of `GOG_KEYRING_BACKEND` is non-empty and the output mode is
neither JSON nor plain, and no line at all otherwise; the value in the NOTE is the
trimmed environment value, whatever it is.  And when a set-mode run fails before
the write (usage error, failed read, failed write), nothing is written to
standard error. -/
theorem C10_env_override_note (table : Char → Char) (c : AuthKeyringCmd) (w : World)
    (h1 : (normalizeArgs table c).1 ≠ "") (h2 : (normalizeArgs table c).2 = "")
    (h3 : rewriteDefault (normalizeArgs table c).1 ∈ allowed)
    (hr : w.readErr = none) (hw : w.writeErr = none) (hui : w.ui = true) :
    (Run table c w).2.config.KeyringBackend = rewriteDefault (normalizeArgs table c).1 ∧
      (Run table c w).2.stderr =
        w.stderr ++
          (if strings.TrimSpace w.GOG_KEYRING_BACKEND ≠ "" ∧ w.isJSON = false ∧
              w.isPlain = false then
            ["NOTE: GOG_KEYRING_BACKEND=" ++ strings.TrimSpace w.GOG_KEYRING_BACKEND ++
              " overrides config.json"]
          else []) ∧
      (∀ (c2 : AuthKeyringCmd) (w2 : World), (normalizeArgs table c2).1 ≠ "" →
        ((normalizeArgs table c2).2 ≠ "" ∨ rewriteDefault (normalizeArgs table c2).1 ∉ allowed ∨
          w2.readErr ≠ none ∨ w2.writeErr ≠ none) →
        (Run table c2 w2).1 ≠ none ∧ (Run table c2 w2).2.stderr = w2.stderr) := by
  obtain ⟨hc, he, -⟩ := Run_write table c w h1 h2 h3 hr hw
  refine ⟨by rw [hc], ?_, ?_⟩
  · rw [he]
    simp [hui, noteLine]
  · intro c2 w2 g1 g
    obtain ⟨ga, gb⟩ := Run_fail_before_write table c2 w2 g1 g
    exact ⟨ga, by rw [gb]⟩

/-- C10 (witness): `gog auth keyring file` in text mode with
`GOG_KEYRING_BACKEND` set to ` file `, the very backend being written: the NOTE
line is emitted once. -/
theorem C10_env_override_note_witness :
    (Run id ⟨"file", ""⟩ { sampleWorld with GOG_KEYRING_BACKEND := " file " }).2.stderr =
      ["NOTE: GOG_KEYRING_BACKEND=file overrides config.json"] ∧
    (Run id ⟨"file", ""⟩
        { sampleWorld with GOG_KEYRING_BACKEND := " file " }).2.config.KeyringBackend = "file" :=
  have h := C10_env_override_note id ⟨"file", ""⟩
    { sampleWorld with GOG_KEYRING_BACKEND := " file " }
    (by decide) (by decide) (by decide) rfl rfl rfl
  ⟨h.2.1, h.1⟩

end cmd

/-! ## Properties of `remoteTokenSource.Token` -/

namespace strings

theorem Contains_append_left (a b sub : String) (h : Contains a sub) :
    Contains (a ++ b) sub := by
  unfold Contains at *
  rw [String.data_append]
  exact h.trans (List.prefix_append a.data b.data).isInfix

theorem Contains_append_right (a b sub : String) (h : Contains b sub) :
    Contains (a ++ b) sub := by
  unfold Contains at *
  rw [String.data_append]
  exact h.trans (List.suffix_append a.data b.data).isInfix

theorem Contains_self (s : String) : Contains s s :=
  List.infix_refl s.data

end strings

namespace googleapi

open strings

theorem buildRequest_ok (lib : Stdlib) (r : remoteTokenSource) (body : String)
    (hm : lib.jsonMarshal { Email := r.email, Scopes := r.scopes } = Except.ok body)
    (hu : lib.urlError r.endpoint = none) :
    buildRequest lib r = Except.ok
      { Method := "POST", URL := r.endpoint,
        Header :=
          if r.auth ≠ "" then
            Header.Set (Header.Set [] "Content-Type" "application/json") "Authorization"
              ("Bearer " ++ r.auth)
          else Header.Set [] "Content-Type" "application/json",
        Body := body } := by
  by_cases ha : r.auth = "" <;> simp [buildRequest, NewRequest, hm, hu, ha]

theorem buildRequest_error (lib : Stdlib) (r : remoteTokenSource) (msg : String)
    (h : buildRequest lib r = Except.error msg) :
    Contains msg "marshal request" ∨ Contains msg "create request" := by
  unfold buildRequest NewRequest at h
  cases hm : lib.jsonMarshal { Email := r.email, Scopes := r.scopes } with
  | error e =>
    rw [hm] at h
    injection h with h
    subst h
    exact Or.inl (Contains_append_left _ _ _ (by decide))
  | ok body =>
    rw [hm] at h
    cases hu : lib.urlError r.endpoint with
    | some e =>
      rw [hu] at h
      injection h with h
      subst h
      exact Or.inr (Contains_append_left _ _ _ (by decide))
    | none =>
      rw [hu] at h
      by_cases ha : r.auth = "" <;> simp [ha] at h

theorem exchange_transport_error (lib : Stdlib) (r : remoteTokenSource) (req : Request)
    (err : String) (h : clientOf lib r req = Except.error err) :
    exchange lib r req = Except.error ("remote token: request failed: " ++ err) := by
  simp [exchange, h]

theorem exchange_read_error (lib : Stdlib) (r : remoteTokenSource) (req : Request)
    (resp : Response) (err : String) (h : clientOf lib r req = Except.ok resp)
    (hb : resp.Body = Except.error err) :
    exchange lib r req = Except.error ("remote token: read response: " ++ err) := by
  simp [exchange, h, hb]

theorem exchange_status_error (lib : Stdlib) (r : remoteTokenSource) (req : Request)
    (resp : Response) (body : String) (h : clientOf lib r req = Except.ok resp)
    (hb : resp.Body = Except.ok body) (hs : resp.StatusCode ≠ 200) :
    exchange lib r req = Except.error
      ("remote token: endpoint returned " ++ toString resp.StatusCode ++ ": " ++ body) := by
  simp [exchange, h, hb, hs]

theorem exchange_parse_error (lib : Stdlib) (r : remoteTokenSource) (req : Request)
    (resp : Response) (body err : String) (h : clientOf lib r req = Except.ok resp)
    (hb : resp.Body = Except.ok body) (hs : resp.StatusCode = 200)
    (hj : lib.jsonUnmarshal body = Except.error err) :
    exchange lib r req = Except.error ("remote token: parse response: " ++ err) := by
  simp [exchange, h, hb, hs, hj]

theorem exchange_empty_error (lib : Stdlib) (r : remoteTokenSource) (req : Request)
    (resp : Response) (body : String) (tokenResp : remoteTokenResponse)
    (h : clientOf lib r req = Except.ok resp)
    (hb : resp.Body = Except.ok body) (hs : resp.StatusCode = 200)
    (hj : lib.jsonUnmarshal body = Except.ok tokenResp) (he : tokenResp.AccessToken = "") :
    exchange lib r req =
      Except.error "remote token: endpoint returned empty access token" := by
  simp [exchange, h, hb, hs, hj, he]

theorem exchange_ok (lib : Stdlib) (r : remoteTokenSource) (req : Request)
    (resp : Response) (body : String) (tokenResp : remoteTokenResponse)
    (h : clientOf lib r req = Except.ok resp)
    (hb : resp.Body = Except.ok body) (hs : resp.StatusCode = 200)
    (hj : lib.jsonUnmarshal body = Except.ok tokenResp) (he : tokenResp.AccessToken ≠ "") :
    exchange lib r req = Except.ok
      { AccessToken := tokenResp.AccessToken, TokenType := "", RefreshToken := "",
        Expiry := tokenResp.Expiry } := by
  simp [exchange, h, hb, hs, hj, he]

theorem Token_of_request (lib : Stdlib) (r : remoteTokenSource) (req : Request)
    (h : buildRequest lib r = Except.ok req) : Token lib r = exchange lib r req := by
  simp [Token, h]

/-- Every outcome of `exchange` is a token with a non-empty access token or an
error with one of the tags. -/
theorem exchange_cases (lib : Stdlib) (r : remoteTokenSource) (req : Request) :
    (∃ tok, exchange lib r req = Except.ok tok ∧ tok.AccessToken ≠ "") ∨
      (∃ msg, exchange lib r req = Except.error msg ∧ tagged msg) := by
  cases h : clientOf lib r req with
  | error err =>
    right
    refine ⟨_, exchange_transport_error lib r req err h, ?_⟩
    exact Or.inr (Or.inr (Or.inl (Contains_append_left _ _ _ (by decide))))
  | ok resp =>
    cases hb : resp.Body with
    | error err =>
      right
      refine ⟨_, exchange_read_error lib r req resp err h hb, ?_⟩
      exact Or.inr (Or.inr (Or.inr (Or.inl (Contains_append_left _ _ _ (by decide)))))
    | ok body =>
      by_cases hs : resp.StatusCode = 200
      · cases hj : lib.jsonUnmarshal body with
        | error err =>
          right
          refine ⟨_, exchange_parse_error lib r req resp body err h hb hs hj, ?_⟩
          exact Or.inr (Or.inr (Or.inr (Or.inr (Or.inr (Or.inl
            (Contains_append_left _ _ _ (by decide)))))))
        | ok tokenResp =>
          by_cases he : tokenResp.AccessToken = ""
          · right
            refine ⟨_, exchange_empty_error lib r req resp body tokenResp h hb hs hj he, ?_⟩
            exact Or.inr (Or.inr (Or.inr (Or.inr (Or.inr (Or.inr (by decide))))))
          · left
            exact ⟨_, exchange_ok lib r req resp body tokenResp h hb hs hj he, he⟩
      · right
        refine ⟨_, exchange_status_error lib r req resp body h hb hs, ?_⟩
        exact Or.inr (Or.inr (Or.inr (Or.inr (Or.inl
          (Contains_append_left _ _ _ (Contains_append_left _ _ _
            (Contains_append_left _ _ _ (by decide))))))))

/-- Every outcome of `Token` is a token with a non-empty access token or an error
with one of the tags. -/
theorem Token_cases (lib : Stdlib) (r : remoteTokenSource) :
    (∃ tok, Token lib r = Except.ok tok ∧ tok.AccessToken ≠ "") ∨
      (∃ msg, Token lib r = Except.error msg ∧ tagged msg) := by
  cases hq : buildRequest lib r with
  | error msg =>
    right
    refine ⟨msg, by simp [Token, hq], ?_⟩
    rcases buildRequest_error lib r msg hq with h | h
    · exact Or.inl h
    · exact Or.inr (Or.inl h)
  | ok req =>
    rw [Token_of_request lib r req hq]
    exact exchange_cases lib r req

/-! ### RFC 3339: parsing what was formatted -/

theorem toNat_ofNat_small (n : Nat) (h : n < 256) : (Char.ofNat n).toNat = n := by
  have hv : n.isValidChar := Or.inl (by omega)
  simp only [Char.ofNat, dif_pos hv]
  rfl

theorem digitChar_toNat (n : Nat) : (digitChar n).toNat = 48 + n % 10 := by
  unfold digitChar
  exact toNat_ofNat_small _ (by omega)

theorem isDigit_digitChar (n : Nat) : isDigit (digitChar n) = true := by
  simp [isDigit, digitChar_toNat]
  omega

theorem parseDigits_two (a b : Nat) :
    parseDigits 0 [digitChar a, digitChar b] = some (a % 10 * 10 + b % 10) := by
  simp [parseDigits, isDigit_digitChar, digitChar_toNat]

theorem parseUint_appendInt2 (x min max : Nat) (hx : x < 100) (h1 : min ≤ x) (h2 : x ≤ max) :
    parseUint (appendInt2 x) min max = some x := by
  have hv : x / 10 % 10 * 10 + x % 10 = x := by omega
  simp [parseUint, appendInt2, parseDigits_two, hv, h1, h2]

theorem parseUint_appendInt4 (x : Nat) (hx : x ≤ 9999) :
    parseUint (appendInt4 x) 0 9999 = some x := by
  have hv : ((x / 1000 % 10 * 10 + x / 100 % 10) * 10 + x / 10 % 10) * 10 + x % 10 = x := by
    omega
  simp [parseUint, appendInt4, parseDigits, isDigit_digitChar, digitChar_toNat, hv, hx]

theorem parseFraction_zone (offset : Int) :
    parseFraction (formatZone offset) = (0, formatZone offset) := by
  unfold formatZone
  by_cases h0 : offset = 0
  · simp [h0, parseFraction]
  · simp only [h0, if_false]
    by_cases hs : offset < 0
    · rw [if_pos hs]
      simp [parseFraction, appendInt2]
    · rw [if_neg hs]
      simp [parseFraction, appendInt2]

theorem parseZone_formatZone (offset : Int) (hr : offset.natAbs / 60 < 24) :
    parseZone (formatZone offset) = some offset := by
  unfold formatZone
  by_cases h0 : offset = 0
  · simp [h0, parseZone]
  · simp only [h0, if_false]
    have hh := parseUint_appendInt2 (offset.natAbs / 60) 0 23 (by omega) (by omega) (by omega)
    have hm := parseUint_appendInt2 (offset.natAbs % 60) 0 59 (by omega) (by omega) (by omega)
    have hval : offset.natAbs / 60 * 60 + offset.natAbs % 60 = offset.natAbs := by
      omega
    simp only [appendInt2] at hh hm
    by_cases hneg : offset < 0
    · have hc : ((Char.ofNat 45).toNat = 45 ∨ (Char.ofNat 45).toNat = 43) ∧
          (Char.ofNat 58).toNat = 58 := by decide
      have hc2 : (Char.ofNat 45).toNat = 45 := by decide
      simp only [hneg, if_true, parseZone, appendInt2,
        List.cons_append, List.nil_append, hh, hm, hc, hc2, hval]
      rw [if_pos ⟨Or.inl trivial, trivial⟩]
      simp only [Option.some.injEq]
      omega
    · have hc : ((Char.ofNat 43).toNat = 45 ∨ (Char.ofNat 43).toNat = 43) ∧
          (Char.ofNat 58).toNat = 58 := by decide
      have hc2 : ¬ (Char.ofNat 43).toNat = 45 := by decide
      simp only [hneg, if_false, parseZone, appendInt2,
        List.cons_append, List.nil_append, hh, hm, hc, hc2, hval, if_true]
      rw [if_pos ⟨Or.inr (by decide), trivial⟩]
      simp only [Option.some.injEq]
      omega

theorem parseRFC3339_format (t : Time) (hv : t.valid) (hy : t.year ≤ 9999) (hn : t.nsec = 0)
    (hr : t.offset.natAbs / 60 < 24) :
    parseRFC3339 (formatRFC3339 t) = some t := by
  obtain ⟨hm1, hm2, hd1, hd2, hh, hmi, hs, -⟩ := hv
  have hdays : daysIn t.month t.year ≤ 31 := by
    unfold daysIn; split_ifs <;> omega
  have e1 := parseUint_appendInt4 t.year hy
  have e2 := parseUint_appendInt2 t.month 1 12 (by omega) hm1 hm2
  have e3 := parseUint_appendInt2 t.day 1 (daysIn t.month t.year) (by omega) hd1 hd2
  have e4 := parseUint_appendInt2 t.hour 0 23 (by omega) (by omega) (by omega)
  have e5 := parseUint_appendInt2 t.minute 0 59 (by omega) (by omega) (by omega)
  have e6 := parseUint_appendInt2 t.second 0 59 (by omega) (by omega) (by omega)
  simp only [appendInt2, appendInt4] at e1 e2 e3 e4 e5 e6
  simp only [formatRFC3339, appendInt2, appendInt4, formatNano, hn, if_true, List.cons_append,
    List.nil_append, parseRFC3339, e1, e2, e3, e4, e5, e6, parseFraction_zone,
    parseZone_formatZone t.offset hr]
  simp [toNat_ofNat_small]
  cases t
  simp_all

/-! ### JSON strings: scanning and unquoting what was escaped -/

theorem char_of_toNat {c : Char} {k : Nat} (h : c.toNat = k) : c = Char.ofNat k := by
  rw [← h, Char.ofNat_toNat]

theorem foldr_consRaw (l a rest : List Char) :
    l.foldr consRaw (some (a, rest)) = some (l ++ a, rest) := by
  induction l with
  | nil => rfl
  | cons c l ih => simp [List.foldr, ih, consRaw]

theorem scanString_plain (l rest : List Char) (q : Char) (hq : q.toNat = 34)
    (h : ∀ c ∈ l, plainChar c) :
    scanString (l ++ q :: rest) = some (l, rest) := by
  induction l with
  | nil => simp [scanString, scanStringFrom, hq]
  | cons c l ih =>
    obtain ⟨h1, h2, h3⟩ : 32 ≤ c.toNat ∧ c.toNat ≠ 34 ∧ c.toNat ≠ 92 :=
      h c (List.mem_cons_self c l)
    have ih2 := ih (fun d hd => h d (List.mem_cons_of_mem c hd))
    have h4 : ¬ c.toNat < 32 := by omega
    simp only [scanString] at ih2 ⊢
    simp [scanStringFrom, h2, h3, h4, ih2, consRaw]

theorem scanString_escapeRune_small (tail : List Char) :
    ∀ k, k < 64 →
      scanString (escapeRune (Char.ofNat k) ++ tail) =
        (escapeRune (Char.ofNat k)).foldr consRaw (scanString tail) := by
  intro k hk
  interval_cases k <;> rfl

theorem unquoteFrom_escapeRune_small (tail : List Char) :
    ∀ k, k < 64 →
      unquoteFrom 0 (escapeRune (Char.ofNat k) ++ tail) = Char.ofNat k :: unquoteFrom 0 tail := by
  intro k hk
  interval_cases k <;> rfl

theorem escapeRune_plain (c : Char) (h1 : 64 ≤ c.toNat) (h2 : c.toNat ≠ 92)
    (h3 : c.toNat ≠ 0x2028) (h4 : c.toNat ≠ 0x2029) : escapeRune c = [c] := by
  have e1 : ¬ (c.toNat = 34 ∨ c.toNat = 92) := by omega
  have e2 : ¬ (c.toNat < 32 ∨ c.toNat = 60 ∨ c.toNat = 62 ∨ c.toNat = 38) := by omega
  have e3 : ¬ (c.toNat = 0x2028 ∨ c.toNat = 0x2029) := by omega
  have e4 : c.toNat ≠ 8 ∧ c.toNat ≠ 12 ∧ c.toNat ≠ 10 ∧ c.toNat ≠ 13 ∧ c.toNat ≠ 9 := by omega
  simp only [escapeRune, e1, e2, e3, e4.1, e4.2.1, e4.2.2.1, e4.2.2.2.1, e4.2.2.2.2, if_false]

theorem scanString_escapeRune (c : Char) (tail : List Char) :
    scanString (escapeRune c ++ tail) = (escapeRune c).foldr consRaw (scanString tail) := by
  by_cases h1 : c.toNat < 64
  · have hc := char_of_toNat (rfl : c.toNat = c.toNat)
    rw [hc]
    exact scanString_escapeRune_small tail _ h1
  · by_cases h2 : c.toNat = 92
    · rw [char_of_toNat h2]; rfl
    · by_cases h3 : c.toNat = 0x2028
      · rw [char_of_toNat h3]; rfl
      · by_cases h4 : c.toNat = 0x2029
        · rw [char_of_toNat h4]; rfl
        · rw [escapeRune_plain c (by omega) h2 h3 h4]
          have e1 : c.toNat ≠ 34 := by omega
          have e2 : ¬ c.toNat < 32 := by omega
          simp [scanString, scanStringFrom, e1, h2, e2]

theorem unquoteFrom_escapeRune (c : Char) (tail : List Char) :
    unquoteFrom 0 (escapeRune c ++ tail) = c :: unquoteFrom 0 tail := by
  by_cases h1 : c.toNat < 64
  · have hc := char_of_toNat (rfl : c.toNat = c.toNat)
    rw [hc]
    exact unquoteFrom_escapeRune_small tail _ h1
  · by_cases h2 : c.toNat = 92
    · rw [char_of_toNat h2]; rfl
    · by_cases h3 : c.toNat = 0x2028
      · rw [char_of_toNat h3]; rfl
      · by_cases h4 : c.toNat = 0x2029
        · rw [char_of_toNat h4]; rfl
        · rw [escapeRune_plain c (by omega) h2 h3 h4]
          simp [unquoteFrom, h2]

theorem scanString_flatMap (l : List Char) (q : Char) (hq : q.toNat = 34)
    (rest : List Char) :
    scanString (l.flatMap escapeRune ++ q :: rest) = some (l.flatMap escapeRune, rest) := by
  induction l with
  | nil => simp [scanString, scanStringFrom, hq]
  | cons c l ih =>
    simp only [List.flatMap_cons, List.append_assoc]
    rw [scanString_escapeRune, ih, foldr_consRaw]

theorem scanString_escapeString (X : String) (q : Char) (hq : q.toNat = 34)
    (rest : List Char) :
    scanString (escapeString X ++ q :: rest) = some (escapeString X, rest) :=
  scanString_flatMap X.data q hq rest

theorem unquoteFrom_flatMap (l : List Char) :
    unquoteFrom 0 (l.flatMap escapeRune) = l := by
  induction l with
  | nil => rfl
  | cons c l ih =>
    simp only [List.flatMap_cons]
    rw [unquoteFrom_escapeRune, ih]

theorem unquote_escapeString (X : String) : unquote (escapeString X) = X.data :=
  unquoteFrom_flatMap X.data

/-! ### The decoder on an encoded response -/

theorem skipSpace_cons (c : Char) (cs : List Char) (h : isJSONSpace c = false) :
    skipSpace (c :: cs) = c :: cs := by
  simp [skipSpace, List.dropWhile, h]

theorem skipSpace_spaces (ws : List Char) (h : ∀ c ∈ ws, isJSONSpace c = true) :
    skipSpace ws = [] := by
  induction ws with
  | nil => rfl
  | cons c ws ih =>
    simp only [skipSpace, List.dropWhile, h c (List.mem_cons_self c ws)]
    exact ih (fun d hd => h d (List.mem_cons_of_mem c hd))

theorem parseValue_string (fuel depth : Nat) (cs raw rest : List Char)
    (h : scanString cs = some (raw, rest)) :
    parseValue (fuel + 1) depth (Char.ofNat 34 :: cs) =
      some ({ kind := Shallow.string raw, members := [] }, rest) := by
  have h1 : (Char.ofNat 34).toNat = 34 := by decide
  simp [parseValue, h1, h]

theorem parseMembers_string_more (fuel depth : Nat) (key raw s2 s4 rest : List Char)
    (ms : List (List Char × Shallow))
    (hk : scanString s2 = some (key, Char.ofNat 58 :: Char.ofNat 34 :: s4))
    (hv : scanString s4 = some (raw, Char.ofNat 44 :: Char.ofNat 34 :: rest))
    (hm : parseMembers (fuel + 1) depth (Char.ofNat 34 :: rest) = some (ms, []))
    : parseMembers (fuel + 2) depth (Char.ofNat 34 :: s2) =
      some ((key, Shallow.string raw) :: ms, []) := by
  have h1 : (Char.ofNat 34).toNat = 34 := by decide
  have h2 : (Char.ofNat 58).toNat = 58 := by decide
  have h3 : (Char.ofNat 44).toNat = 44 := by decide
  rw [parseMembers]
  simp only [h1, if_true, hk, skipSpace_cons _ _ (by decide : isJSONSpace (Char.ofNat 58) = false),
    h2, skipSpace_cons _ _ (by decide : isJSONSpace (Char.ofNat 34) = false),
    parseValue_string fuel depth s4 raw _ hv,
    skipSpace_cons _ _ (by decide : isJSONSpace (Char.ofNat 44) = false), h3, hm]
  simp

theorem parseMembers_string_last (fuel depth : Nat) (key raw s2 s4 rest : List Char)
    (hk : scanString s2 = some (key, Char.ofNat 58 :: Char.ofNat 34 :: s4))
    (hv : scanString s4 = some (raw, Char.ofNat 125 :: rest)) :
    parseMembers (fuel + 2) depth (Char.ofNat 34 :: s2) =
      some ([(key, Shallow.string raw)], rest) := by
  have h1 : (Char.ofNat 34).toNat = 34 := by decide
  have h2 : (Char.ofNat 58).toNat = 58 := by decide
  have h3 : (Char.ofNat 125).toNat = 125 := by decide
  rw [parseMembers]
  simp only [h1, if_true, hk, skipSpace_cons _ _ (by decide : isJSONSpace (Char.ofNat 58) = false),
    h2, skipSpace_cons _ _ (by decide : isJSONSpace (Char.ofNat 34) = false),
    parseValue_string fuel depth s4 raw _ hv,
    skipSpace_cons _ _ (by decide : isJSONSpace (Char.ofNat 125) = false), h3]

theorem parseMembers_string_next (fuel depth : Nat) (key raw s2 s4 rest tail : List Char)
    (ms : List (List Char × Shallow))
    (hk : scanString s2 = some (key, Char.ofNat 58 :: Char.ofNat 34 :: s4))
    (hv : scanString s4 = some (raw, Char.ofNat 44 :: Char.ofNat 34 :: rest))
    (hm : parseMembers (fuel + 1) depth (Char.ofNat 34 :: rest) = some (ms, tail)) :
    parseMembers (fuel + 2) depth (Char.ofNat 34 :: s2) =
      some ((key, Shallow.string raw) :: ms, tail) := by
  have h1 : (Char.ofNat 34).toNat = 34 := by decide
  have h2 : (Char.ofNat 58).toNat = 58 := by decide
  have h3 : (Char.ofNat 44).toNat = 44 := by decide
  rw [parseMembers]
  simp only [h1, if_true, hk, skipSpace_cons _ _ (by decide : isJSONSpace (Char.ofNat 58) = false),
    h2, skipSpace_cons _ _ (by decide : isJSONSpace (Char.ofNat 34) = false),
    parseValue_string fuel depth s4 raw _ hv,
    skipSpace_cons _ _ (by decide : isJSONSpace (Char.ofNat 44) = false), h3, hm]
  simp

theorem parseValue_object (fuel : Nat) (s rest : List Char) (ms : List (List Char × Shallow))
    (hm : parseMembers fuel 1 (Char.ofNat 34 :: s) = some (ms, rest)) :
    parseValue (fuel + 1) 0 (Char.ofNat 123 :: Char.ofNat 34 :: s) =
      some ({ kind := Shallow.object, members := ms }, rest) := by
  have h1 : (Char.ofNat 123).toNat = 123 := by decide
  have h2 : ¬ (Char.ofNat 34).toNat = 125 := by decide
  have h3 : ¬ maxNestingDepth ≤ 0 := by decide
  rw [parseValue]
  simp only [h1, if_true, h3, if_false,
    skipSpace_cons _ _ (by decide : isJSONSpace (Char.ofNat 34) = false), h2, hm]

theorem digitChar_plain (n : Nat) : plainChar (digitChar n) := by
  unfold plainChar
  rw [digitChar_toNat]; omega

theorem formatZone_plain (offset : Int) : ∀ c ∈ formatZone offset, plainChar c := by
  unfold formatZone
  by_cases h0 : offset = 0
  · simp only [h0, if_true, List.forall_mem_cons]
    exact ⟨by decide, by simp⟩
  · simp only [h0, if_false, appendInt2, List.cons_append, List.nil_append,
      List.forall_mem_cons]
    refine ⟨?_, digitChar_plain _, digitChar_plain _, by decide, digitChar_plain _,
      digitChar_plain _, by simp⟩
    split_ifs <;> decide

theorem formatRFC3339_plain (t : Time) (hn : t.nsec = 0) :
    ∀ c ∈ formatRFC3339 t, plainChar c := by
  simp only [formatRFC3339, appendInt2, appendInt4, formatNano, hn, if_true, List.cons_append,
    List.nil_append, List.forall_mem_cons]
  exact ⟨digitChar_plain _, digitChar_plain _, digitChar_plain _, digitChar_plain _, by decide,
    digitChar_plain _, digitChar_plain _, by decide, digitChar_plain _, digitChar_plain _,
    by decide, digitChar_plain _, digitChar_plain _, by decide, digitChar_plain _,
    digitChar_plain _, by decide, digitChar_plain _, digitChar_plain _, formatZone_plain _⟩

/-- The characters of the encoding of a response, one after the other. -/
theorem jsonMarshalResponse_ok (X : String) (T : Time) (m : String)
    (hm : jsonMarshalResponse { AccessToken := X, Expiry := T } = Except.ok m) :
    T.year ≤ 9999 ∧ T.offset.natAbs / 60 < 24 ∧
      m.data =
        Char.ofNat 123 :: Char.ofNat 34 ::
          ("access_token".data ++ Char.ofNat 34 :: Char.ofNat 58 :: Char.ofNat 34 ::
            (escapeString X ++ Char.ofNat 34 :: Char.ofNat 44 :: Char.ofNat 34 ::
              ("expiry".data ++ Char.ofNat 34 :: Char.ofNat 58 :: Char.ofNat 34 ::
                (formatRFC3339 T ++ [Char.ofNat 34, Char.ofNat 125])))) := by
  unfold jsonMarshalResponse timeMarshalJSON at hm
  by_cases hy : 9999 < T.year
  · simp [hy] at hm
  · by_cases hz : 24 ≤ T.offset.natAbs / 60
    · simp [hy, hz] at hm
    · simp only [hy, hz, if_false] at hm
      injection hm with hm
      refine ⟨by omega, by omega, ?_⟩
      rw [← hm]
      simp only [List.append_assoc]
      rfl

theorem jsonUnmarshal_marshal (lenient : List Char → Except String Time) (X : String) (T : Time)
    (m : String) (ws : List Char)
    (hm : jsonMarshalResponse { AccessToken := X, Expiry := T } = Except.ok m)
    (hv : T.valid) (hn : T.nsec = 0)
    (hws : ∀ c ∈ ws, isJSONSpace c = true) :
    jsonUnmarshal lenient ⟨m.data ++ ws⟩ = Except.ok { AccessToken := X, Expiry := T } := by
  obtain ⟨hy, hz, hdata⟩ := jsonMarshalResponse_ok X T m hm
  have q34 : (Char.ofNat 34).toNat = 34 := by decide
  -- the two keys and the two values, as the scanner reads them
  have hk1 := scanString_plain "access_token".data
    (Char.ofNat 58 :: Char.ofNat 34 ::
      (escapeString X ++ Char.ofNat 34 :: Char.ofNat 44 :: Char.ofNat 34 ::
        ("expiry".data ++ Char.ofNat 34 :: Char.ofNat 58 :: Char.ofNat 34 ::
          (formatRFC3339 T ++ Char.ofNat 34 :: Char.ofNat 125 :: ws))))
    (Char.ofNat 34) q34 (by decide)
  have hv1 := scanString_escapeString X (Char.ofNat 34) q34
    (Char.ofNat 44 :: Char.ofNat 34 ::
      ("expiry".data ++ Char.ofNat 34 :: Char.ofNat 58 :: Char.ofNat 34 ::
        (formatRFC3339 T ++ Char.ofNat 34 :: Char.ofNat 125 :: ws)))
  have hk2 := scanString_plain "expiry".data
    (Char.ofNat 58 :: Char.ofNat 34 :: (formatRFC3339 T ++ Char.ofNat 34 :: Char.ofNat 125 :: ws))
    (Char.ofNat 34) q34 (by decide)
  have hv2 := scanString_plain (formatRFC3339 T) (Char.ofNat 125 :: ws) (Char.ofNat 34) q34
    (formatRFC3339_plain T hn)
  have hbody : m.data ++ ws =
      Char.ofNat 123 :: Char.ofNat 34 ::
        ("access_token".data ++ Char.ofNat 34 :: Char.ofNat 58 :: Char.ofNat 34 ::
          (escapeString X ++ Char.ofNat 34 :: Char.ofNat 44 :: Char.ofNat 34 ::
            ("expiry".data ++ Char.ofNat 34 :: Char.ofNat 58 :: Char.ofNat 34 ::
              (formatRFC3339 T ++ Char.ofNat 34 :: Char.ofNat 125 :: ws)))) := by
    rw [hdata]
    simp [List.append_assoc]
  have hlen : 1 ≤ (m.data ++ ws).length := by rw [hbody]; simp
  obtain ⟨fuel, hfuel⟩ : ∃ fuel, 2 * (m.data ++ ws).length + 2 = fuel + 4 :=
    ⟨2 * (m.data ++ ws).length - 2, by omega⟩
  have hparse : parseValue (fuel + 4) 0 (m.data ++ ws) =
      some ({ kind := Shallow.object,
              members := [("access_token".data, Shallow.string (escapeString X)),
                ("expiry".data, Shallow.string (formatRFC3339 T))] }, ws) := by
    rw [hbody]
    exact parseValue_object (fuel + 3) _ _ _
      (parseMembers_string_next (fuel + 1) 1 _ _ _ _ _ _ _ hk1 hv1
        (parseMembers_string_last fuel 1 _ _ _ _ _ hk2 hv2))
  have hsp : skipSpace (m.data ++ ws) = m.data ++ ws := by
    rw [hbody]
    exact skipSpace_cons _ _ (by decide)
  have htime : timeUnmarshal lenient (formatRFC3339 T) = Except.ok T := by
    simp [timeUnmarshal, parseRFC3339_format T hv hy hn hz]
  have hkey1 : keyIs "access_token".data "access_token" = true := by decide
  have hkey2 : keyIs "expiry".data "access_token" = false := by decide
  have hkey3 : keyIs "expiry".data "expiry" = true := by decide
  simp only [jsonUnmarshal, hsp, hfuel, hparse, skipSpace_spaces ws hws, ne_eq, not_true_eq_false,
    if_false, decodeMembers, hkey1, hkey2, hkey3, if_true, htime, unquote_escapeString]
  rfl

/-! ### Properties of `Token` -/

/-- C5: round trip.  For every non-empty access token `X` and every timestamp
`T` at whole-second granularity, if the request can be built and the endpoint
answers it with status 200 and the JSON encoding of the response object with
`access_token` `X` and `expiry` `T` (as `json.Marshal` writes it, or
`json.Encoder.Encode`, which adds a newline), then `Token`, decoding the body
with `json.Unmarshal`, succeeds and the token it returns has `AccessToken` equal
to `X` and `Expiry` equal to `T`. -/
theorem C5_token_round_trip (lib : Stdlib) (r : remoteTokenSource) (req : Request)
    (lenient : List Char → Except String Time) (X : String) (T : Time) (encoded body : String)
    (hlib : lib.jsonUnmarshal = jsonUnmarshal lenient)
    (hreq : buildRequest lib r = Except.ok req)
    (henc : jsonMarshalResponse { AccessToken := X, Expiry := T } = Except.ok encoded)
    (hbody : body = encoded ∨ body = encoded ++ "\n")
    (hdo : clientOf lib r req = Except.ok { StatusCode := 200, Body := Except.ok body })
    (hX : X ≠ "") (hT : T.valid) (hsec : T.nsec = 0) :
    ∃ tok, Token lib r = Except.ok tok ∧ tok.AccessToken = X ∧ tok.Expiry = T := by
  have hjson : lib.jsonUnmarshal body = Except.ok { AccessToken := X, Expiry := T } := by
    rw [hlib]
    rcases hbody with hb | hb
    · have h := jsonUnmarshal_marshal lenient X T encoded [] henc hT hsec (by simp)
      rw [List.append_nil] at h
      rw [hb]
      exact h
    · have h := jsonUnmarshal_marshal lenient X T encoded [Char.ofNat 10] henc hT hsec
        (by simp; decide)
      rw [hb]
      exact h
  rw [Token_of_request lib r req hreq]
  exact ⟨_, exchange_ok lib r req _ body _ hdo rfl rfl hjson hX, rfl, rfl⟩

/-- C5 (witness): the server of `TestRemoteTokenSource_HappyPath`, which answers
with `Encode` of `access-123` and an expiry. -/
theorem C5_token_round_trip_witness :
    jsonMarshalResponse { AccessToken := "access-123", Expiry := sampleExpiry } =
      Except.ok
        "\x7b\"access_token\":\"access-123\",\"expiry\":\"2025-01-01T00:00:00Z\"\x7d" ∧
    ∃ tok, Token sampleLib (sampleSource "test-token" 200 sampleBody) = Except.ok tok ∧
      tok.AccessToken = "access-123" ∧ tok.Expiry = sampleExpiry :=
  ⟨rfl, C5_token_round_trip sampleLib (sampleSource "test-token" 200 sampleBody)
    (sampleRequest "test-token") sampleLenient "access-123" sampleExpiry
    "\x7b\"access_token\":\"access-123\",\"expiry\":\"2025-01-01T00:00:00Z\"\x7d"
    sampleBody rfl rfl rfl (Or.inr rfl) rfl (by decide) (by decide) rfl⟩

/-- C6: for every response delivered to `Token` whose status code is not 200 and
every response body, whatever `json.Unmarshal` would make of that body, `Token`
returns no token and fails with an error whose message contains the decimal
status code and the raw response body. -/
theorem C6_non_200_status_error (lib : Stdlib) (r : remoteTokenSource) (req : Request)
    (code : Int) (body : String)
    (hreq : buildRequest lib r = Except.ok req)
    (hdo : clientOf lib r req = Except.ok { StatusCode := code, Body := Except.ok body })
    (hcode : code ≠ 200) :
    ∃ msg, Token lib r = Except.error msg ∧ Contains msg (toString code) ∧
      Contains msg body := by
  rw [Token_of_request lib r req hreq]
  refine ⟨_, exchange_status_error lib r req _ body hdo rfl hcode, ?_, ?_⟩
  · exact Contains_append_left _ _ _ (Contains_append_left _ _ _
      (Contains_append_right _ _ _ (Contains_self _)))
  · exact Contains_append_right _ _ _ (Contains_self _)

/-- C6 (witness): status 201 with a body that is a well-formed token object. -/
theorem C6_non_200_status_error_witness :
    sampleLib.jsonUnmarshal sampleBody =
      Except.ok { AccessToken := "access-123", Expiry := sampleExpiry } ∧
    ∃ msg, Token sampleLib (sampleSource "" 201 sampleBody) = Except.error msg ∧
      Contains msg "201" ∧ Contains msg sampleBody :=
  ⟨rfl, C6_non_200_status_error sampleLib (sampleSource "" 201 sampleBody) (sampleRequest "")
    201 sampleBody rfl rfl (by decide)⟩

/-- C7: every token returned successfully by `Token` has a non-empty access token;
and for every response with status 200 whose parsed `access_token` is empty,
`Token` returns no token and fails with an error whose message contains
`empty access token`. -/
theorem C7_non_empty_access_token (lib : Stdlib) (r : remoteTokenSource) (req : Request)
    (body : String) (T : Time)
    (hreq : buildRequest lib r = Except.ok req)
    (hdo : clientOf lib r req = Except.ok { StatusCode := 200, Body := Except.ok body })
    (hjson : lib.jsonUnmarshal body = Except.ok { AccessToken := "", Expiry := T }) :
    (∃ msg, Token lib r = Except.error msg ∧ Contains msg "empty access token") ∧
      (∀ (lib2 : Stdlib) (r2 : remoteTokenSource) (tok : oauth2Token),
        Token lib2 r2 = Except.ok tok → tok.AccessToken ≠ "") := by
  constructor
  · rw [Token_of_request lib r req hreq]
    exact ⟨_, exchange_empty_error lib r req _ body _ hdo rfl rfl hjson rfl, by decide⟩
  · intro lib2 r2 tok h
    rcases Token_cases lib2 r2 with ⟨tok2, h2, hne⟩ | ⟨msg, h2, -⟩
    · rw [h] at h2
      injection h2 with h2
      rw [h2]
      exact hne
    · rw [h] at h2
      cases h2

/-- C7 (witness): the server of `TestRemoteTokenSource_EmptyAccessToken`. -/
theorem C7_non_empty_access_token_witness :
    Token sampleLib (sampleSource "" 200 emptyTokenBody) =
      Except.error "remote token: endpoint returned empty access token" ∧
    ∃ msg, Token sampleLib (sampleSource "" 200 emptyTokenBody) = Except.error msg ∧
      Contains msg "empty access token" :=
  ⟨rfl, (C7_non_empty_access_token sampleLib (sampleSource "" 200 emptyTokenBody)
    (sampleRequest "") emptyTokenBody sampleExpiry rfl rfl rfl).1⟩

/-- C8: for every token source whose request body marshals and whose endpoint
parses as a URL, `Token` builds a request and hands exactly that request to the
client; the request is a POST to the endpoint with the marshalled body and
`Content-Type` `application/json`, and it has an `Authorization` header if and
only if `auth` is non-empty, in which case its value is exactly `Bearer `
followed by `auth`. -/
theorem C8_request_headers (lib : Stdlib) (r : remoteTokenSource) (body : String)
    (hm : lib.jsonMarshal { Email := r.email, Scopes := r.scopes } = Except.ok body)
    (hu : lib.urlError r.endpoint = none) :
    ∃ req, buildRequest lib r = Except.ok req ∧ Token lib r = exchange lib r req ∧
      req.Method = "POST" ∧ req.URL = r.endpoint ∧ req.Body = body ∧
      Header.Values req.Header "Content-Type" = some ["application/json"] ∧
      (Header.Values req.Header "Authorization" ≠ none ↔ r.auth ≠ "") ∧
      (r.auth ≠ "" →
        Header.Values req.Header "Authorization" = some ["Bearer " ++ r.auth]) := by
  have hb := buildRequest_ok lib r body hm hu
  refine ⟨_, hb, Token_of_request lib r _ hb, rfl, rfl, rfl, ?_, ?_, ?_⟩
  · by_cases ha : r.auth = "" <;> simp [ha, Header.Set, Header.Values]
  · by_cases ha : r.auth = "" <;> simp [ha, Header.Set, Header.Values]
  · intro ha
    simp [ha, Header.Set, Header.Values]

/-- C8 (witness): the two configurations of the tests, with and without `auth`. -/
theorem C8_request_headers_witness :
    (∃ req, buildRequest sampleLib (sampleSource "test-token" 200 sampleBody) = Except.ok req ∧
      Header.Values req.Header "Authorization" = some ["Bearer test-token"]) ∧
    (∃ req, buildRequest sampleLib (sampleSource "" 200 sampleBody) = Except.ok req ∧
      Header.Values req.Header "Authorization" = none) := by
  obtain ⟨req, h1, -, -, -, -, -, -, h2⟩ :=
    C8_request_headers sampleLib (sampleSource "test-token" 200 sampleBody) _ rfl rfl
  exact ⟨⟨req, h1, h2 (by decide)⟩, ⟨sampleRequest "", rfl, rfl⟩⟩

/-- C9: every error returned by `Token` is the error of the first stage that
failed, wrapped under the stable tag of that stage, and no token is returned:
`marshal request` when `json.Marshal` fails; `create request` when
`http.NewRequest` fails; `request failed` when the client fails to deliver a
response; `read response` when the body cannot be read; `endpoint returned`
(with the status code and the body) on a status other than 200; `parse response`
when a status-200 body is not parseable by `json.Unmarshal`; `empty access token`
when the parsed access token is empty.  In particular every error of `Token`
contains one of the seven tags. -/
theorem C9_error_tags (lib : Stdlib) (r : remoteTokenSource) :
    (∀ err, lib.jsonMarshal { Email := r.email, Scopes := r.scopes } = Except.error err →
        Token lib r = Except.error ("remote token: marshal request: " ++ err) ∧
          Contains ("remote token: marshal request: " ++ err) "marshal request") ∧
      (∀ reqBody err,
        lib.jsonMarshal { Email := r.email, Scopes := r.scopes } = Except.ok reqBody →
        lib.urlError r.endpoint = some err →
        Token lib r = Except.error ("remote token: create request: " ++ err) ∧
          Contains ("remote token: create request: " ++ err) "create request") ∧
      (∀ req, buildRequest lib r = Except.ok req →
        (∀ err, clientOf lib r req = Except.error err →
          Token lib r = Except.error ("remote token: request failed: " ++ err) ∧
            Contains ("remote token: request failed: " ++ err) "request failed") ∧
        (∀ code err,
          clientOf lib r req = Except.ok { StatusCode := code, Body := Except.error err } →
          Token lib r = Except.error ("remote token: read response: " ++ err) ∧
            Contains ("remote token: read response: " ++ err) "read response") ∧
        (∀ code body,
          clientOf lib r req = Except.ok { StatusCode := code, Body := Except.ok body } →
          code ≠ 200 →
          Token lib r = Except.error
              ("remote token: endpoint returned " ++ toString code ++ ": " ++ body) ∧
            Contains ("remote token: endpoint returned " ++ toString code ++ ": " ++ body)
              "endpoint returned") ∧
        (∀ body err,
          clientOf lib r req = Except.ok { StatusCode := 200, Body := Except.ok body } →
          lib.jsonUnmarshal body = Except.error err →
          Token lib r = Except.error ("remote token: parse response: " ++ err) ∧
            Contains ("remote token: parse response: " ++ err) "parse response") ∧
        (∀ body expiry,
          clientOf lib r req = Except.ok { StatusCode := 200, Body := Except.ok body } →
          lib.jsonUnmarshal body = Except.ok { AccessToken := "", Expiry := expiry } →
          Token lib r = Except.error "remote token: endpoint returned empty access token" ∧
            Contains "remote token: endpoint returned empty access token"
              "empty access token")) ∧
      (∀ msg, Token lib r = Except.error msg →
        Contains msg "marshal request" ∨ Contains msg "create request" ∨
          Contains msg "request failed" ∨ Contains msg "read response" ∨
          Contains msg "endpoint returned" ∨ Contains msg "parse response" ∨
          Contains msg "empty access token") := by
  refine ⟨?_, ?_, ?_, ?_⟩
  · intro err h
    exact ⟨by simp [Token, buildRequest, h], Contains_append_left _ _ _ (by decide)⟩
  · intro reqBody err hm hu
    exact ⟨by simp [Token, buildRequest, NewRequest, hm, hu],
      Contains_append_left _ _ _ (by decide)⟩
  · intro req hreq
    rw [Token_of_request lib r req hreq]
    refine ⟨?_, ?_, ?_, ?_, ?_⟩
    · intro err h
      exact ⟨exchange_transport_error lib r req err h, Contains_append_left _ _ _ (by decide)⟩
    · intro code err h
      exact ⟨exchange_read_error lib r req _ err h rfl, Contains_append_left _ _ _ (by decide)⟩
    · intro code body h hcode
      exact ⟨exchange_status_error lib r req _ body h rfl hcode,
        Contains_append_left _ _ _ (Contains_append_left _ _ _
          (Contains_append_left _ _ _ (by decide)))⟩
    · intro body err h hj
      exact ⟨exchange_parse_error lib r req _ body err h rfl rfl hj,
        Contains_append_left _ _ _ (by decide)⟩
    · intro body expiry h hj
      exact ⟨exchange_empty_error lib r req _ body _ h rfl rfl hj rfl, by decide⟩
  · intro msg h
    rcases Token_cases lib r with ⟨tok, h2, -⟩ | ⟨msg2, h2, ht⟩
    · rw [h] at h2
      cases h2
    · rw [h] at h2
      injection h2 with h2
      rw [h2]
      exact ht

/-- C9 (witness): the unreachable endpoint of `TestRemoteTokenSource_ConnectionError`
(no client injected) and the body `not json` of `TestRemoteTokenSource_InvalidJSON`. -/
theorem C9_error_tags_witness :
    Token sampleLib
        { endpoint := "http://127.0.0.1:1", auth := "", email := "user@example.com",
          scopes := ["scope1"], httpClient := none } =
      Except.error
        "remote token: request failed: dial tcp 127.0.0.1:1: connect: connection refused" ∧
    Token sampleLib (sampleSource "" 200 "not json") =
      Except.error "remote token: parse response: invalid character" :=
  ⟨(((C9_error_tags sampleLib
      { endpoint := "http://127.0.0.1:1", auth := "", email := "user@example.com",
        scopes := ["scope1"], httpClient := none }).2.2.1
      { Method := "POST", URL := "http://127.0.0.1:1",
        Header := [("Content-Type", ["application/json"])],
        Body := "\x7b\"email\":\"user@example.com\",\"scopes\":[\"scope1\"]\x7d" } rfl).1
      _ rfl).1,
    (((C9_error_tags sampleLib (sampleSource "" 200 "not json")).2.2.1
      (sampleRequest "") rfl).2.2.2.1 "not json" _ rfl rfl).1⟩

end googleapi
